import Mathlib

/-!
# Verification of the `fresh` editor's text-storage and highlighting core

Shallow embedding of the repository's Rust sources:

* `src/chunk_tree.rs` — the persistent ternary chunk tree (`ChunkTreeNode`,
  `ChunkTree`): `from_slice`, `insert`, `remove`, `collect_bytes`.
* `src/text_buffer.rs` — the piece-table text buffer
  (`TextBuffer::insert_bytes`, `TextBuffer::try_append_to_existing_buffer`).
* `src/primitives/textmate_highlighter.rs` — the viewport highlighter
  (`scope_to_category`, `parse_region`, `highlight_viewport`,
  `merge_adjacent_spans`).

Bytes are modelled as `Nat` (values < 256 in practice; no arithmetic that
could overflow occurs in the modelled code, and `usize` subtraction sites
are noted where Rust would saturate or the caller guarantees no underflow).
Fallible operations (the `panic!` branch of `ChunkTreeNode::insert` and the
out-of-bounds leaf slicings) are modelled with `Option`.
-/

namespace Fresh

/-! ## Chunk tree (`src/chunk_tree.rs`)

`ChunkTreeNode<'a>`: `Leaf { data }`, `Gap { size }`,
`Internal { left, mid, right, size }`. -/

inductive ChunkTreeNode where
  | leaf (data : List Nat)
  | gap (size : Nat)
  | internal (left mid right : ChunkTreeNode) (size : Nat)
  deriving DecidableEq, Repr

namespace ChunkTreeNode

/-- `ChunkTreeNode::len` (lines 101–107). -/
def len : ChunkTreeNode → Nat
  | leaf data => data.length
  | gap size => size
  | internal _ _ _ size => size

/-- `ChunkTreeNode::empty` (lines 117–119): the zero-sized gap. -/
def emptyNode : ChunkTreeNode := gap 0

/-- Recursion core of `ChunkTreeNode::from_slice` (lines 82–99).  The Rust
function recurses on strictly shorter slices, so its recursion depth is
bounded by `data.len()`; the structural `fuel` argument makes that bound
explicit (callers pass `fuel = data.length`, and every recursive call gets a
strictly shorter list, so the `fuel = 0` fallback, where the list is
necessarily empty, coincides with the `len ≤ n` leaf branch). -/
def fromSliceAux : Nat → List Nat → Nat → ChunkTreeNode
  | 0, data, _ => leaf data
  | fuel + 1, data, n =>
    if data.length ≤ n then leaf data
    else
      let midIndex := data.length / 2
      internal
        (fromSliceAux fuel (data.take midIndex) n)
        emptyNode
        (fromSliceAux fuel (data.drop midIndex) n)
        data.length

/-- `ChunkTreeNode::from_slice` (lines 82–99).  The source asserts `n > 0`;
the `n = 0` case (a Rust panic) is modelled by an arbitrary junk value so the
function stays total — all theorems assume `1 ≤ n`. -/
def fromSlice (data : List Nat) (n : Nat) : ChunkTreeNode :=
  if n = 0 then leaf [] else fromSliceAux data.length data n

/-- `ChunkTreeNode::insert` (lines 122–184).  Rust panic sites are modelled
as `none`: the slicings `leaf_data[..index]` / `leaf_data[index..]` panic when
`index > leaf_data.len()`, and the final `else` arm of the `Internal` case is
an explicit `panic!`.  `size.saturating_sub(index)` is `Nat` subtraction. -/
def insertNode : ChunkTreeNode → Nat → List Nat → Nat → Option ChunkTreeNode
  | leaf leafData, index, data, n =>
    if index ≤ leafData.length then
      some (internal
        (fromSlice (leafData.take index) n)
        (fromSlice data n)
        (fromSlice (leafData.drop index) n)
        (leafData.length + data.length))
    else none
  | gap size, index, data, n =>
    let endPadding := size - index
    some (internal
      (gap index)
      (fromSlice data n)
      (gap endPadding)
      (index + data.length + endPadding))
  | internal left mid right _, index, data, n =>
    if index ≤ left.len then
      (insertNode left index data n).map fun newLeft =>
        internal newLeft mid right (newLeft.len + mid.len + right.len)
    else if index ≤ left.len + mid.len then
      (insertNode mid (index - left.len) data n).map fun newMid =>
        internal left newMid right (left.len + newMid.len + right.len)
    else if index ≤ left.len + mid.len + right.len then
      (insertNode right (index - left.len - mid.len) data n).map fun newRight =>
        internal left mid newRight (left.len + mid.len + newRight.len)
    else none

/-- `ChunkTreeNode::range_shift_left` (lines 264–266); `saturating_sub` is
`Nat` subtraction. -/
def rangeShiftLeft (s e amount : Nat) : Nat × Nat :=
  (s - amount, e - amount)

/-- `ChunkTreeNode::range_cap` (lines 268–270). -/
def rangeCap (s e maxv : Nat) : Nat × Nat :=
  (min s maxv, min e maxv)

/-- `ChunkTreeNode::remove` (lines 186–262), over a half-open range
`[s, e)`.  Rust's `Range::len()` returns `0` when `start ≥ end`, which is
exactly `Nat` subtraction `e - s`; the leaf slicings `data[..s]` / `data[e..]`
are `take` / `drop` (the caller keeps them in bounds).  The source's
`assert!` statements are invariant checks, not behaviour, and are omitted. -/
def removeNode : ChunkTreeNode → Nat → Nat → Nat → ChunkTreeNode
  | t, s, e, n =>
    if t.len = 0 ∧ e ≤ s then emptyNode
    else
      match t with
      | leaf data =>
        internal
          (fromSlice (data.take s) n)
          emptyNode
          (fromSlice (data.drop e) n)
          (data.length - (e - s))
      | gap size =>
        let newSize := if size ≤ s then size else size - (min size e - s)
        gap newSize
      | internal left mid right size =>
        if size < s then internal left mid right size
        else
          let newLeft :=
            if s < left.len then
              let c := rangeCap s e left.len
              removeNode left c.1 c.2 n
            else left
          let midRange := rangeShiftLeft s e left.len
          let newMid :=
            if midRange.1 < mid.len then
              let c := rangeCap midRange.1 midRange.2 mid.len
              removeNode mid c.1 c.2 n
            else mid
          let rightRange := rangeShiftLeft s e (left.len + mid.len)
          let newRight :=
            if rightRange.1 < right.len then
              let c := rangeCap rightRange.1 rightRange.2 right.len
              removeNode right c.1 c.2 n
            else right
          internal newLeft newMid newRight (newLeft.len + newMid.len + newRight.len)

/-- `ChunkTreeNode::collect_bytes_into` (lines 272–291), returning the
collected list instead of pushing into an output vector. -/
def collectBytes : ChunkTreeNode → Nat → List Nat
  | leaf data, _ => data
  | gap size, gapValue => List.replicate size gapValue
  | internal left mid right _, gapValue =>
    collectBytes left gapValue ++ collectBytes mid gapValue ++ collectBytes right gapValue

/-- Tree depth (each node counts 1); used for the `from_slice` depth claim. -/
def depth : ChunkTreeNode → Nat
  | leaf _ => 1
  | gap _ => 1
  | internal left mid right _ => 1 + max (depth left) (max (depth mid) (depth right))

/-- Returns `true` iff the node is a `Leaf`. -/
def isLeaf : ChunkTreeNode → Bool
  | leaf _ => true
  | _ => false

/-- The chunk-tree invariant stated in the source's module documentation
(`chunk_tree.rs` lines 33–35) and in the spec: every internal node's cached
size equals the sum of its children's sizes, and every leaf holds at most `n`
bytes. -/
def inv (n : Nat) : ChunkTreeNode → Bool
  | leaf data => data.length ≤ n
  | gap _ => true
  | internal left mid right size =>
    (size = left.len + mid.len + right.len) && inv n left && inv n mid && inv n right

end ChunkTreeNode

/-- `ChunkTree<'a>` (lines 344–348). -/
structure ChunkTree where
  root : ChunkTreeNode
  n : Nat
  deriving DecidableEq, Repr

namespace ChunkTree

/-- `ChunkTree::from_slice` (lines 356–362). -/
def fromSlice (data : List Nat) (n : Nat) : ChunkTree :=
  ⟨ChunkTreeNode.fromSlice data n, n⟩

/-- `ChunkTree::len` (lines 364–366). -/
def len (t : ChunkTree) : Nat := t.root.len

/-- `ChunkTree::insert` (lines 372–392).  `none` models a panic inside
`ChunkTreeNode::insert`. -/
def insert (t : ChunkTree) (index : Nat) (data : List Nat) : Option ChunkTree :=
  if index ≤ t.len then
    (t.root.insertNode index data t.n).map fun root => ⟨root, t.n⟩
  else
    some ⟨ChunkTreeNode.internal
      t.root
      (ChunkTreeNode.gap (index - t.len))
      (ChunkTreeNode.fromSlice data t.n)
      (index + data.length), t.n⟩

/-- `ChunkTree::remove` (lines 394–410) over the half-open range `[s, e)`. -/
def remove (t : ChunkTree) (s e : Nat) : ChunkTree :=
  if s < t.len then
    ⟨t.root.removeNode s (min t.root.len e) t.n, t.n⟩
  else
    ⟨t.root, t.n⟩

/-- `ChunkTree::collect_bytes` (lines 412–416). -/
def collectBytes (t : ChunkTree) (gapValue : Nat) : List Nat :=
  t.root.collectBytes gapValue

end ChunkTree

namespace ChunkTreeNode

theorem fromSliceAux_len (fuel : Nat) (data : List Nat) (n : Nat) :
    (fromSliceAux fuel data n).len = data.length := by
  cases fuel with
  | zero => rfl
  | succ fuel =>
    rw [fromSliceAux]
    split
    · rfl
    · rfl

theorem fromSlice_len (data : List Nat) (n : Nat) (hn : 1 ≤ n) :
    (fromSlice data n).len = data.length := by
  rw [fromSlice, if_neg (by omega)]
  exact fromSliceAux_len _ _ _

theorem fromSliceAux_collect (fuel : Nat) (data : List Nat) (n : Nat) (g : Nat) :
    (fromSliceAux fuel data n).collectBytes g = data := by
  induction fuel generalizing data with
  | zero => rfl
  | succ fuel ih =>
    rw [fromSliceAux]
    split
    · rfl
    · simp [collectBytes, emptyNode, ih]

theorem fromSlice_collect (data : List Nat) (n : Nat) (hn : 1 ≤ n) (g : Nat) :
    (fromSlice data n).collectBytes g = data := by
  rw [fromSlice, if_neg (by omega)]
  exact fromSliceAux_collect _ _ _ _

theorem fromSliceAux_inv (fuel : Nat) (data : List Nat) (n : Nat) (hn : 1 ≤ n)
    (hfuel : data.length ≤ fuel) : inv n (fromSliceAux fuel data n) = true := by
  induction fuel generalizing data with
  | zero =>
    have : data = [] := List.length_eq_zero.mp (by omega)
    subst this
    simp [fromSliceAux, inv]
  | succ fuel ih =>
    rw [fromSliceAux]
    split
    · simpa [inv]
    · rename_i hgt
      simp only [inv, Bool.and_eq_true, decide_eq_true_eq]
      refine ⟨⟨⟨?_, ih _ (by simp only [List.length_take]; omega)⟩,
        by simp [inv, emptyNode]⟩, ih _ (by simp only [List.length_drop]; omega)⟩
      rw [fromSliceAux_len, fromSliceAux_len]
      simp only [emptyNode, len, List.length_take, List.length_drop]
      omega

theorem fromSlice_inv (data : List Nat) (n : Nat) (hn : 1 ≤ n) :
    inv n (fromSlice data n) = true := by
  rw [fromSlice, if_neg (by omega)]
  exact fromSliceAux_inv _ _ _ hn le_rfl

theorem collect_length_of_inv {n : Nat} {t : ChunkTreeNode} (h : inv n t = true) (g : Nat) :
    (t.collectBytes g).length = t.len := by
  induction t with
  | leaf data => rfl
  | gap size => simp [collectBytes, len]
  | internal l m r size ihl ihm ihr =>
    simp only [inv, Bool.and_eq_true, decide_eq_true_eq] at h
    obtain ⟨⟨⟨hs, hl⟩, hm⟩, hr⟩ := h
    simp only [collectBytes, List.length_append, ihl hl, ihm hm, ihr hr, len, hs]

theorem insertNode_isSome {n : Nat} {t : ChunkTreeNode} (hinv : inv n t = true)
    {i : Nat} (hi : i ≤ t.len) (d : List Nat) :
    (insertNode t i d n).isSome := by
  induction t generalizing i with
  | leaf data =>
    simp only [len] at hi
    simp [insertNode, hi]
  | gap size => simp [insertNode]
  | internal l m r size ihl ihm ihr =>
    simp only [inv, Bool.and_eq_true, decide_eq_true_eq] at hinv
    obtain ⟨⟨⟨hs, hl⟩, hm⟩, hr⟩ := hinv
    simp only [len] at hi
    simp only [insertNode]
    split
    · rename_i h1
      simpa [Option.isSome_map] using ihl hl h1
    · split
      · rename_i h1 h2
        simpa [Option.isSome_map] using ihm hm (by omega)
      · split
        · rename_i h1 h2 h3
          simpa [Option.isSome_map] using ihr hr (by omega)
        · rename_i h1 h2 h3
          omega

theorem insertNode_inv {n : Nat} (hn : 1 ≤ n) {t t' : ChunkTreeNode} (hinv : inv n t = true)
    {i : Nat} {d : List Nat} (h : insertNode t i d n = some t') : inv n t' = true := by
  induction t generalizing i t' with
  | leaf data =>
    simp only [insertNode] at h
    split at h
    · rename_i hle
      cases h
      simp only [inv, Bool.and_eq_true, decide_eq_true_eq]
      refine ⟨⟨⟨?_, fromSlice_inv _ _ hn⟩, fromSlice_inv _ _ hn⟩, fromSlice_inv _ _ hn⟩
      rw [fromSlice_len _ _ hn, fromSlice_len _ _ hn, fromSlice_len _ _ hn]
      simp only [List.length_take, List.length_drop]
      omega
    · cases h
  | gap size =>
    simp only [insertNode] at h
    cases h
    simp only [inv, Bool.and_eq_true, decide_eq_true_eq]
    refine ⟨⟨⟨?_, by simp [inv]⟩, by simp [fromSlice_inv _ _ hn]⟩, by simp [inv]⟩
    rw [fromSlice_len _ _ hn]
    simp [len]
  | internal l m r size ihl ihm ihr =>
    simp only [inv, Bool.and_eq_true, decide_eq_true_eq] at hinv
    obtain ⟨⟨⟨hs, hl⟩, hm⟩, hr⟩ := hinv
    simp only [insertNode] at h
    split at h
    · obtain ⟨nl, hnl, rfl⟩ := Option.map_eq_some'.mp h
      simp [inv, ihl hl hnl, hm, hr]
    · split at h
      · obtain ⟨nm, hnm, rfl⟩ := Option.map_eq_some'.mp h
        simp [inv, hl, ihm hm hnm, hr]
      · split at h
        · obtain ⟨nr, hnr, rfl⟩ := Option.map_eq_some'.mp h
          simp [inv, hl, hm, ihr hr hnr]
        · cases h

theorem splice_concat_left {α : Type} (cl cm cr d : List α) (i : Nat) (hi : i ≤ cl.length) :
    (cl.take i ++ d ++ cl.drop i) ++ cm ++ cr
      = (cl ++ cm ++ cr).take i ++ d ++ (cl ++ cm ++ cr).drop i := by
  have h1 : i - cl.length = 0 := by omega
  have h2 : i - (cl.length + cm.length) = 0 := by omega
  rw [List.take_append_eq_append_take, List.take_append_eq_append_take,
      List.drop_append_eq_append_drop, List.drop_append_eq_append_drop]
  simp [h1, h2, List.append_assoc]

theorem splice_concat_mid {α : Type} (cl cm cr d : List α) (i : Nat)
    (h1 : cl.length ≤ i) (h2 : i ≤ cl.length + cm.length) :
    cl ++ (cm.take (i - cl.length) ++ d ++ cm.drop (i - cl.length)) ++ cr
      = (cl ++ cm ++ cr).take i ++ d ++ (cl ++ cm ++ cr).drop i := by
  have hz : i - (cl.length + cm.length) = 0 := by omega
  rw [List.take_append_eq_append_take, List.take_append_eq_append_take,
      List.drop_append_eq_append_drop, List.drop_append_eq_append_drop,
      List.take_of_length_le (by omega : cl.length ≤ i),
      List.drop_eq_nil_of_le (by omega : cl.length ≤ i)]
  simp [hz, List.append_assoc]

theorem splice_concat_right {α : Type} (cl cm cr d : List α) (i : Nat)
    (h1 : cl.length + cm.length ≤ i) :
    cl ++ cm ++ (cr.take (i - cl.length - cm.length) ++ d ++ cr.drop (i - cl.length - cm.length))
      = (cl ++ cm ++ cr).take i ++ d ++ (cl ++ cm ++ cr).drop i := by
  have hz : i - (cl.length + cm.length) = i - cl.length - cm.length := by omega
  rw [List.take_append_eq_append_take, List.take_append_eq_append_take,
      List.drop_append_eq_append_drop, List.drop_append_eq_append_drop,
      List.take_of_length_le (by omega : cl.length ≤ i),
      List.drop_eq_nil_of_le (by omega : cl.length ≤ i),
      List.take_of_length_le (by omega : cm.length ≤ i - cl.length),
      List.drop_eq_nil_of_le (by omega : cm.length ≤ i - cl.length)]
  simp [hz, List.append_assoc]

theorem insertNode_collect {n : Nat} (hn : 1 ≤ n) {t t' : ChunkTreeNode}
    (hinv : inv n t = true) {i : Nat} (hi : i ≤ t.len) {d : List Nat}
    (h : insertNode t i d n = some t') (g : Nat) :
    t'.collectBytes g = (t.collectBytes g).take i ++ d ++ (t.collectBytes g).drop i := by
  induction t generalizing i t' with
  | leaf data =>
    simp only [insertNode] at h
    split at h
    · cases h
      simp [collectBytes, fromSlice_collect _ _ hn]
    · cases h
  | gap size =>
    simp only [len] at hi
    simp only [insertNode] at h
    cases h
    simp only [collectBytes, List.take_replicate, List.drop_replicate,
      Nat.min_eq_left hi, fromSlice_collect _ _ hn]
  | internal l m r size ihl ihm ihr =>
    simp only [inv, Bool.and_eq_true, decide_eq_true_eq] at hinv
    obtain ⟨⟨⟨hs, hl⟩, hm⟩, hr⟩ := hinv
    simp only [len] at hi
    have hcl : (l.collectBytes g).length = l.len := collect_length_of_inv hl g
    have hcm : (m.collectBytes g).length = m.len := collect_length_of_inv hm g
    have hcr : (r.collectBytes g).length = r.len := collect_length_of_inv hr g
    simp only [insertNode] at h
    split at h
    · rename_i h1
      obtain ⟨nl, hnl, rfl⟩ := Option.map_eq_some'.mp h
      have ih := ihl hl h1 hnl
      simp only [collectBytes, ih]
      exact splice_concat_left _ _ _ d i (by omega)
    · split at h
      · rename_i h1 h2
        obtain ⟨nm, hnm, rfl⟩ := Option.map_eq_some'.mp h
        have ih := ihm hm (i := i - l.len) (by omega) hnm
        simp only [collectBytes, ih]
        rw [← hcl]
        exact splice_concat_mid _ _ _ d i (by omega) (by omega)
      · split at h
        · rename_i h1 h2 h3
          obtain ⟨nr, hnr, rfl⟩ := Option.map_eq_some'.mp h
          have ih := ihr hr (i := i - l.len - m.len) (by omega) hnr
          simp only [collectBytes, ih]
          rw [← hcl, ← hcm]
          exact splice_concat_right _ _ _ d i (by omega)
        · cases h

theorem removeNode_inv {n : Nat} (hn : 1 ≤ n) {t : ChunkTreeNode} (hinv : inv n t = true)
    {s e : Nat} (hse : s ≤ e) (he : e ≤ t.len) :
    inv n (removeNode t s e n) = true := by
  induction t generalizing s e with
  | leaf data =>
    simp only [len] at he
    rw [removeNode]
    split
    · simp [inv, emptyNode]
    · simp only [inv, Bool.and_eq_true, decide_eq_true_eq]
      refine ⟨⟨⟨?_, fromSlice_inv _ _ hn⟩, by simp [inv, emptyNode]⟩, fromSlice_inv _ _ hn⟩
      rw [fromSlice_len _ _ hn, fromSlice_len _ _ hn]
      simp only [emptyNode, len, List.length_take, List.length_drop]
      omega
  | gap size =>
    rw [removeNode]
    split
    · simp [inv, emptyNode]
    · simp [inv]
  | internal l m r size ihl ihm ihr =>
    simp only [inv, Bool.and_eq_true, decide_eq_true_eq] at hinv
    obtain ⟨⟨⟨hs, hl⟩, hm⟩, hr⟩ := hinv
    simp only [len] at he
    rw [removeNode]
    split
    · simp [inv, emptyNode]
    · split
      · simp [inv, hs, hl, hm, hr]
      · simp only [rangeCap, rangeShiftLeft, inv, Bool.and_eq_true, decide_eq_true_eq]
        refine ⟨⟨⟨trivial, ?_⟩, ?_⟩, ?_⟩
        · split
          · exact ihl hl (by omega) (by simp only [len]; omega)
          · exact hl
        · split
          · exact ihm hm (by omega) (by simp only [len]; omega)
          · exact hm
        · split
          · exact ihr hr (by omega) (by simp only [len]; omega)
          · exact hr

theorem fromSliceAux_depth {n : Nat} (hn : 1 ≤ n) :
    ∀ fuel (d : List Nat), d.length ≤ fuel → 1 ≤ d.length →
      (fromSliceAux fuel d n).depth = Nat.clog 2 ((d.length - 1) / n + 1) + 1 := by
  intro fuel
  induction fuel with
  | zero => intro d h1 h2; omega
  | succ fuel ih =>
    intro d hfuel hd1
    rw [fromSliceAux]
    split
    · rename_i hle
      have h0 : (d.length - 1) / n = 0 := Nat.div_eq_of_lt (by omega)
      simp [depth, h0]
    · rename_i hgt
      push_neg at hgt
      have hL2 : 2 ≤ d.length := by omega
      have hlenT : (d.take (d.length / 2)).length = d.length / 2 := by
        simp only [List.length_take]
        omega
      have hlenD : (d.drop (d.length / 2)).length = d.length - d.length / 2 := by
        simp [List.length_drop]
      have ihl := ih (d.take (d.length / 2)) (by omega) (by omega)
      have ihr := ih (d.drop (d.length / 2)) (by omega) (by omega)
      rw [hlenT] at ihl
      rw [hlenD] at ihr
      simp only [depth, emptyNode, ihl, ihr]
      have hmono : Nat.clog 2 ((d.length / 2 - 1) / n + 1)
          ≤ Nat.clog 2 ((d.length - d.length / 2 - 1) / n + 1) :=
        Nat.clog_mono_right 2 (by
          have h5 : d.length / 2 - 1 ≤ d.length - d.length / 2 - 1 := by omega
          have := Nat.div_le_div_right (c := n) h5
          omega)
      have hM2 : 2 ≤ (d.length - 1) / n + 1 := by
        have : 1 ≤ (d.length - 1) / n := (Nat.one_le_div_iff (by omega)).mpr (by omega)
        omega
      rw [Nat.clog_of_two_le (by norm_num) hM2]
      have key : ((d.length - 1) / n + 1 + 2 - 1) / 2 = (d.length - d.length / 2 - 1) / n + 1 := by
        have h1 : (d.length - 1) / n + 1 + 2 - 1 = (d.length - 1) / n + 2 := by omega
        have h2 : ((d.length - 1) / n + 2) / 2 = (d.length - 1) / n / 2 + 1 := by omega
        have h3 : (d.length - 1) / n / 2 = (d.length - 1) / (n * 2) :=
          Nat.div_div_eq_div_mul _ _ _
        have h4 : d.length - d.length / 2 - 1 = (d.length - 1) / 2 := by omega
        have h5 : (d.length - 1) / 2 / n = (d.length - 1) / (2 * n) :=
          Nat.div_div_eq_div_mul _ _ _
        rw [h1, h2, h3, h4, h5, Nat.mul_comm]
      rw [key]
      set a := Nat.clog 2 ((d.length / 2 - 1) / n + 1) with ha
      set b := Nat.clog 2 ((d.length - d.length / 2 - 1) / n + 1) with hb
      rw [max_eq_right (by omega : (1 : Nat) ≤ b + 1), max_eq_right (by omega : a + 1 ≤ b + 1)]
      omega

/-- The depth of `from_slice(data, N)` for non-empty `data` is
`⌈log₂⌈len/N⌉⌉ + 1`, where `(len + N - 1) / N = ⌈len/N⌉`. -/
theorem fromSlice_depth {n : Nat} (hn : 1 ≤ n) (d : List Nat) (hd : 1 ≤ d.length) :
    (fromSlice d n).depth = Nat.clog 2 ((d.length + n - 1) / n) + 1 := by
  have hceil : (d.length + n - 1) / n = (d.length - 1) / n + 1 := by
    have h1 : d.length + n - 1 = (d.length - 1) + n := by omega
    rw [h1, Nat.add_div_right _ (by omega)]
  rw [hceil, fromSlice, if_neg (by omega)]
  exact fromSliceAux_depth hn d.length d le_rfl hd

theorem fromSliceAux_of_le {n : Nat} (fuel : Nat) (d : List Nat) (h : d.length ≤ n) :
    fromSliceAux fuel d n = leaf d := by
  cases fuel with
  | zero => rfl
  | succ fuel => rw [fromSliceAux, if_pos h]

theorem fromSlice_isLeaf_iff {n : Nat} (hn : 1 ≤ n) (d : List Nat) :
    isLeaf (fromSlice d n) = true ↔ d.length ≤ n := by
  rw [fromSlice, if_neg (by omega)]
  by_cases h : d.length ≤ n
  · rw [fromSliceAux_of_le _ _ h]
    simpa [isLeaf]
  · obtain ⟨k, hk⟩ : ∃ k, d.length = k + 1 := ⟨d.length - 1, by omega⟩
    rw [hk, fromSliceAux, if_neg (by omega)]
    simp only [isLeaf]
    simp only [Bool.false_eq_true, false_iff]
    omega

end ChunkTreeNode

namespace ChunkTree

open ChunkTreeNode

/-- `ChunkTree::insert` never panics on a well-formed tree: the sparse branch
always succeeds, and for `index ≤ len` the recursive descent always finds a
child, so the `panic!` arm and the out-of-bounds leaf slicings are
unreachable. -/
theorem insert_isSome (t : ChunkTree) (hinv : inv t.n t.root = true)
    (i : Nat) (d : List Nat) : (t.insert i d).isSome := by
  unfold insert
  split
  · rename_i hi
    simpa [Option.isSome_map] using insertNode_isSome hinv hi d
  · simp

theorem insert_inv {t t' : ChunkTree} (hn : 1 ≤ t.n) (hinv : inv t.n t.root = true)
    {i : Nat} {d : List Nat} (h : t.insert i d = some t') :
    1 ≤ t'.n ∧ inv t'.n t'.root = true := by
  unfold insert at h
  split at h
  · obtain ⟨root', hroot, rfl⟩ := Option.map_eq_some'.mp h
    exact ⟨hn, insertNode_inv hn hinv hroot⟩
  · rename_i hi
    cases h
    refine ⟨hn, ?_⟩
    simp only [inv, Bool.and_eq_true, decide_eq_true_eq]
    refine ⟨⟨⟨?_, hinv⟩, by simp [ChunkTreeNode.inv]⟩, fromSlice_inv _ _ hn⟩
    rw [fromSlice_len _ _ hn]
    simp only [ChunkTreeNode.len, ChunkTree.len] at *
    omega

theorem remove_inv {t : ChunkTree} (hn : 1 ≤ t.n) (hinv : inv t.n t.root = true)
    {s e : Nat} (hse : s ≤ e) :
    1 ≤ (t.remove s e).n ∧ inv (t.remove s e).n (t.remove s e).root = true := by
  unfold remove
  split
  · rename_i hlt
    refine ⟨hn, removeNode_inv hn hinv ?_ (by omega)⟩
    simp only [ChunkTree.len] at hlt
    omega
  · exact ⟨hn, hinv⟩

end ChunkTree

/-- Trees obtainable through the public `ChunkTree` API: `from_slice` (with
leaf bound `n ≥ 1`, as asserted by the source) followed by any sequence of
`insert` and `remove` calls, with arbitrary `Range` arguments to `remove`. -/
inductive Reachable : ChunkTree → Prop
  | base (data : List Nat) (n : Nat) (hn : 1 ≤ n) : Reachable (ChunkTree.fromSlice data n)
  | insertStep (t t' : ChunkTree) (i : Nat) (d : List Nat) :
      Reachable t → t.insert i d = some t' → Reachable t'
  | removeStep (t : ChunkTree) (s e : Nat) : Reachable t → Reachable (t.remove s e)

/-- Trees obtainable through the public `ChunkTree` API where every `remove`
receives a proper (non-inverted) range `start ≤ end`. -/
inductive ReachableProper : ChunkTree → Prop
  | base (data : List Nat) (n : Nat) (hn : 1 ≤ n) :
      ReachableProper (ChunkTree.fromSlice data n)
  | insertStep (t t' : ChunkTree) (i : Nat) (d : List Nat) :
      ReachableProper t → t.insert i d = some t' → ReachableProper t'
  | removeStep (t : ChunkTree) (s e : Nat) (hse : s ≤ e) :
      ReachableProper t → ReachableProper (t.remove s e)

/-- C1: for `i ≤ len(t)`, `t.insert(i, d)` produces a tree collecting to the
bytes of `t` with `d` spliced in at position `i`; for `|d| = 0` the result
collects to the same bytes as `t`.  (The input tree itself is unchanged by
construction: the embedding is purely functional, mirroring the persistent
`Arc`-sharing of the source, so `t.collect` before and after the call is the
same term.)  The tree is assumed well-formed (`inv`), which holds for every
API-reachable tree with proper remove ranges. -/
theorem claim_C1_insert_splice (t : ChunkTree) (hn : 1 ≤ t.n)
    (hinv : ChunkTreeNode.inv t.n t.root = true) (i : Nat) (hi : i ≤ t.len)
    (d : List Nat) (t' : ChunkTree) (h : t.insert i d = some t') (g : Nat) :
    t'.collectBytes g = (t.collectBytes g).take i ++ d ++ (t.collectBytes g).drop i
    ∧ (d = [] → t'.collectBytes g = t.collectBytes g) := by
  unfold ChunkTree.insert at h
  rw [if_pos hi] at h
  obtain ⟨root', hroot, rfl⟩ := Option.map_eq_some'.mp h
  have hmain := ChunkTreeNode.insertNode_collect hn hinv hi hroot g
  refine ⟨hmain, fun hd => ?_⟩
  subst hd
  simpa [List.take_append_drop] using hmain

theorem claim_C1_witness :
    ((⟨ChunkTreeNode.internal
        (ChunkTreeNode.internal (ChunkTreeNode.leaf [1]) (ChunkTreeNode.leaf [9])
          (ChunkTreeNode.leaf []) 2)
        (ChunkTreeNode.gap 0) (ChunkTreeNode.leaf [2, 3]) 4, 2⟩ : ChunkTree).collectBytes 0
      = ((ChunkTree.fromSlice [1, 2, 3] 2).collectBytes 0).take 1 ++ [9]
        ++ ((ChunkTree.fromSlice [1, 2, 3] 2).collectBytes 0).drop 1)
    ∧ ((⟨ChunkTreeNode.internal
        (ChunkTreeNode.internal (ChunkTreeNode.leaf [1]) (ChunkTreeNode.leaf [9])
          (ChunkTreeNode.leaf []) 2)
        (ChunkTreeNode.gap 0) (ChunkTreeNode.leaf [2, 3]) 4, 2⟩ : ChunkTree).collectBytes 0
      = [1, 9, 2, 3]) :=
  ⟨(claim_C1_insert_splice (ChunkTree.fromSlice [1, 2, 3] 2) (by decide) (by decide) 1 (by decide)
      [9] _ (by decide) 0).1, by decide⟩

/-- C2 counterexample: the claim fails for an inverted `remove` range.
`remove(3..1)` on the single-leaf tree of `[1,2,3,4,5]` (leaf bound 9) is
reachable through the public API, yet its result caches size 5 at the root
while the children hold 3 + 0 + 4 = 7 bytes, so the cached-size invariant is
violated (Rust's `Range::len()` yields 0 for the inverted range, while the
leaf is still cut at `start` and `end`). -/
theorem claim_C2_counterexample :
    Reachable ((ChunkTree.fromSlice [1, 2, 3, 4, 5] 9).remove 3 1)
    ∧ ChunkTreeNode.inv ((ChunkTree.fromSlice [1, 2, 3, 4, 5] 9).remove 3 1).n
        ((ChunkTree.fromSlice [1, 2, 3, 4, 5] 9).remove 3 1).root = false :=
  ⟨Reachable.removeStep _ 3 1 (Reachable.base [1, 2, 3, 4, 5] 9 (by decide)), by decide⟩

/-- C2 (amended): every tree reachable from `from_slice` by `insert` and
`remove` operations whose remove ranges are proper (`start ≤ end`) satisfies
the invariant: each internal node's cached size equals the sum of its three
children's sizes, and each leaf holds at most `n` bytes (`n ≥ 1`). -/
theorem claim_C2_amended (t : ChunkTree) (h : ReachableProper t) :
    1 ≤ t.n ∧ ChunkTreeNode.inv t.n t.root = true := by
  induction h with
  | base data n hn => exact ⟨hn, ChunkTreeNode.fromSlice_inv data n hn⟩
  | insertStep t t' i d ht hins ih => exact ChunkTree.insert_inv ih.1 ih.2 hins
  | removeStep t s e hse ht ih => exact ChunkTree.remove_inv ih.1 ih.2 hse

theorem claim_C2_amended_witness :
    1 ≤ (ChunkTree.fromSlice [5, 6] 1).n
    ∧ ChunkTreeNode.inv (ChunkTree.fromSlice [5, 6] 1).n
        (ChunkTree.fromSlice [5, 6] 1).root = true :=
  claim_C2_amended (ChunkTree.fromSlice [5, 6] 1) (ReachableProper.base [5, 6] 1 (by decide))

/-- C3: inserting at `i > len(t)` takes the sparse branch, yielding a tree of
length exactly `i + |d|` that collects (with gap byte `g`) to the bytes of
`t`, then `i - len(t)` copies of `g`, then `d`. -/
theorem claim_C3_sparse_insert (t : ChunkTree) (hn : 1 ≤ t.n) (i : Nat)
    (hi : t.len < i) (d : List Nat) (g : Nat) :
    (t.insert i d).map ChunkTree.len = some (i + d.length)
    ∧ (t.insert i d).map (fun t' => t'.collectBytes g)
        = some (t.collectBytes g ++ List.replicate (i - t.len) g ++ d) := by
  unfold ChunkTree.insert
  rw [if_neg (by omega)]
  refine ⟨rfl, ?_⟩
  simp only [Option.map_some', Option.some.injEq, ChunkTree.collectBytes,
    ChunkTreeNode.collectBytes, ChunkTreeNode.fromSlice_collect _ _ hn]

theorem claim_C3_witness :
    ((ChunkTree.fromSlice [1, 2] 1).insert 5 [7, 8]).map ChunkTree.len = some (5 + 2)
    ∧ ((ChunkTree.fromSlice [1, 2] 1).insert 5 [7, 8]).map (fun t' => t'.collectBytes 0)
        = some ((ChunkTree.fromSlice [1, 2] 1).collectBytes 0
            ++ List.replicate (5 - (ChunkTree.fromSlice [1, 2] 1).len) 0 ++ [7, 8]) :=
  claim_C3_sparse_insert (ChunkTree.fromSlice [1, 2] 1) (by decide) 5 (by decide) [7, 8] 0

/-- C4: removing a range whose start lies at or past the end of the tree is
the identity: the source's sparse-remove branch returns the same root, so the
result is structurally — hence semantically — equal to the input. -/
theorem claim_C4_remove_past_end (t : ChunkTree) (s e : Nat) (hs : t.len ≤ s) :
    t.remove s e = t ∧ (t.remove s e).len = t.len
    ∧ ∀ g, (t.remove s e).collectBytes g = t.collectBytes g := by
  have h : t.remove s e = t := by
    unfold ChunkTree.remove
    rw [if_neg (by omega)]
  exact ⟨h, by rw [h], fun g => by rw [h]⟩

theorem claim_C4_witness :
    ((ChunkTree.fromSlice [1, 2, 3] 2).remove 3 10 = ChunkTree.fromSlice [1, 2, 3] 2)
    ∧ ((ChunkTree.fromSlice [1, 2, 3] 2).remove 3 10).len
        = (ChunkTree.fromSlice [1, 2, 3] 2).len
    ∧ ∀ g, ((ChunkTree.fromSlice [1, 2, 3] 2).remove 3 10).collectBytes g
        = (ChunkTree.fromSlice [1, 2, 3] 2).collectBytes g :=
  claim_C4_remove_past_end (ChunkTree.fromSlice [1, 2, 3] 2) 3 10 (by decide)

/-- C5: `from_slice(data, N)` (with `N ≥ 1`, `len ≥ 1`) returns a leaf
exactly when `len ≤ N`; otherwise it splits at `len / 2` and wraps the two
recursive builds in an internal node whose `mid` is an empty gap; the depth
is exactly `⌈log₂⌈len/N⌉⌉ + 1` (writing `(len + N - 1) / N` for `⌈len/N⌉`;
the spec's real-valued `⌈log₂(len/N)⌉ + 1` coincides with this for `len > N`
and is read as its non-negative clamp `1` for `len ≤ N`). -/
theorem claim_C5_fromSlice_shape_depth (d : List Nat) (n : Nat) (hn : 1 ≤ n)
    (hd : 1 ≤ d.length) :
    (ChunkTreeNode.isLeaf (ChunkTreeNode.fromSlice d n) = true ↔ d.length ≤ n)
    ∧ (¬ d.length ≤ n → ChunkTreeNode.fromSlice d n
        = ChunkTreeNode.internal
            (ChunkTreeNode.fromSliceAux (d.length - 1) (d.take (d.length / 2)) n)
            ChunkTreeNode.emptyNode
            (ChunkTreeNode.fromSliceAux (d.length - 1) (d.drop (d.length / 2)) n)
            d.length)
    ∧ (ChunkTreeNode.fromSlice d n).depth = Nat.clog 2 ((d.length + n - 1) / n) + 1 := by
  refine ⟨ChunkTreeNode.fromSlice_isLeaf_iff hn d, fun h => ?_,
    ChunkTreeNode.fromSlice_depth hn d hd⟩
  rw [ChunkTreeNode.fromSlice, if_neg (by omega)]
  have hL : d.length = (d.length - 1) + 1 := by omega
  rw [hL, ChunkTreeNode.fromSliceAux, if_neg (by omega)]
  rw [← hL]

theorem claim_C5_witness :
    (ChunkTreeNode.isLeaf (ChunkTreeNode.fromSlice [1, 2, 3, 4, 5] 2) = true ↔ 5 ≤ 2)
    ∧ (¬ (5 : Nat) ≤ 2 → ChunkTreeNode.fromSlice [1, 2, 3, 4, 5] 2
        = ChunkTreeNode.internal
            (ChunkTreeNode.fromSliceAux 4 [1, 2] 2)
            ChunkTreeNode.emptyNode
            (ChunkTreeNode.fromSliceAux 4 [3, 4, 5] 2) 5)
    ∧ (ChunkTreeNode.fromSlice [1, 2, 3, 4, 5] 2).depth
        = Nat.clog 2 ((5 + 2 - 1) / 2) + 1 :=
  claim_C5_fromSlice_shape_depth [1, 2, 3, 4, 5] 2 (by decide) (by decide)

/-- C10: on a well-formed tree (invariant `inv`, leaf bound `n ≥ 1`), the
public `ChunkTree::insert` is total for every index and slice: for
`i ≤ len(t)` the descent always dispatches into a child containing the index
(so the `panic!` arm and out-of-bounds leaf slicings — modelled as `none` —
are unreachable), and for `i > len(t)` the sparse wrapper is taken. -/
theorem claim_C10_insert_total (t : ChunkTree) (_hn : 1 ≤ t.n)
    (hinv : ChunkTreeNode.inv t.n t.root = true) (i : Nat) (d : List Nat) :
    (t.insert i d).isSome = true :=
  ChunkTree.insert_isSome t hinv i d

theorem claim_C10_witness :
    ((ChunkTree.fromSlice [1, 2, 3, 4] 2).insert 3 [7]).isSome = true :=
  claim_C10_insert_total (ChunkTree.fromSlice [1, 2, 3, 4] 2) (by decide) (by decide) 3 [7]

/-! ## Viewport highlighter (`src/primitives/textmate_highlighter.rs`)

Scope strings are modelled as `List Char`; buffer bytes as `List Nat`.
The external `syntect` parser is a parameter (`LineParser`); the external
theme is a parameter `theme : HighlightCategory → Nat` (a color lookup). -/

/-- Modelled from the spec (§3 Category): the closed category enumeration of
`HighlightCategory` (`primitives/highlighter.rs`, which is not under `src/`).
Constructors abbreviate Comment, String, Keyword, Operator, Function, Type,
Number, Constant, Variable, Property, Attribute. -/
inductive HighlightCategory where
  | comment
  | str
  | keyword
  | operator
  | fn
  | ty
  | number
  | constant
  | var
  | property
  | attr
  deriving DecidableEq, Repr

/-- Lowercasing of one character; `str::to_lowercase` restricted to ASCII,
which is all that scope names contain. -/
def lowerChar (c : Char) : Char :=
  if 'A' ≤ c ∧ c ≤ 'Z' then Char.ofNat (c.toNat + 32) else c

/-- `str::starts_with(pat)`: `beginsWith pat s` is true iff `pat` is an
initial segment of `s`. -/
def beginsWith : List Char → List Char → Bool
  | [], _ => true
  | _ :: _, [] => false
  | p :: ps, c :: cs => p = c && beginsWith ps cs

/-- `scope_to_category` (`textmate_highlighter.rs` lines 314–453): the chain
of lowercased-prefix tests, in source order.  The nested `keyword` block
(`if kw-ish { if !keyword.operator { return Keyword } }` falling through to
the operator test) is written as the equivalent guarded condition. -/
def scope_to_category (scope : List Char) : Option HighlightCategory :=
  let sl := scope.map lowerChar
  if beginsWith ("comment".toList) sl then some .comment
  else if beginsWith ("string".toList) sl then some .str
  else if beginsWith ("markup.heading".toList) sl
      || beginsWith ("entity.name.section".toList) sl then some .keyword
  else if beginsWith ("markup.bold".toList) sl then some .constant
  else if beginsWith ("markup.italic".toList) sl then some .var
  else if beginsWith ("markup.raw".toList) sl
      || beginsWith ("markup.inline.raw".toList) sl then some .str
  else if beginsWith ("markup.underline.link".toList) sl then some .fn
  else if beginsWith ("markup.underline".toList) sl then some .fn
  else if beginsWith ("markup.quote".toList) sl then some .comment
  else if beginsWith ("markup.list".toList) sl then some .operator
  else if beginsWith ("markup.strikethrough".toList) sl then some .comment
  else if (beginsWith ("keyword.control".toList) sl
        || beginsWith ("keyword.other".toList) sl
        || beginsWith ("keyword.declaration".toList) sl
        || beginsWith ("keyword".toList) sl)
      && !(beginsWith ("keyword.operator".toList) sl) then some .keyword
  else if beginsWith ("keyword.operator".toList) sl
      || beginsWith ("punctuation".toList) sl then some .operator
  else if beginsWith ("entity.name.function".toList) sl
      || beginsWith ("support.function".toList) sl
      || beginsWith ("meta.function-call".toList) sl
      || beginsWith ("variable.function".toList) sl then some .fn
  else if beginsWith ("entity.name.type".toList) sl
      || beginsWith ("entity.name.class".toList) sl
      || beginsWith ("entity.name.struct".toList) sl
      || beginsWith ("entity.name.enum".toList) sl
      || beginsWith ("entity.name.interface".toList) sl
      || beginsWith ("entity.name.trait".toList) sl
      || beginsWith ("support.type".toList) sl
      || beginsWith ("support.class".toList) sl
      || beginsWith ("storage.type".toList) sl then some .ty
  else if beginsWith ("storage.modifier".toList) sl then some .keyword
  else if beginsWith ("constant.numeric".toList) sl
      || beginsWith ("constant.language.boolean".toList) sl then some .number
  else if beginsWith ("constant".toList) sl then some .constant
  else if beginsWith ("variable.parameter".toList) sl
      || beginsWith ("variable.other".toList) sl
      || beginsWith ("variable.language".toList) sl then some .var
  else if beginsWith ("entity.name.tag".toList) sl
      || beginsWith ("support.other.property".toList) sl
      || beginsWith ("meta.object-literal.key".toList) sl
      || beginsWith ("variable.other.property".toList) sl
      || beginsWith ("variable.other.object.property".toList) sl then some .property
  else if beginsWith ("entity.other.attribute".toList) sl
      || beginsWith ("meta.attribute".toList) sl
      || beginsWith ("entity.name.decorator".toList) sl then some .attr
  else if beginsWith ("variable".toList) sl then some .var
  else none

/-- Rows of the spec's §4.E priority table, in the spec's order. -/
def specRows : List (List Char × HighlightCategory) :=
  [ (("comment".toList), .comment),
    (("string".toList), .str),
    (("markup.heading".toList), .keyword), (("entity.name.section".toList), .keyword),
    (("markup.bold".toList), .constant),
    (("markup.italic".toList), .var),
    (("markup.raw".toList), .str), (("markup.inline.raw".toList), .str),
    (("markup.underline.link".toList), .fn), (("markup.underline".toList), .fn),
    (("markup.quote".toList), .comment), (("markup.strikethrough".toList), .comment),
    (("markup.list".toList), .operator),
    (("keyword.operator".toList), .operator),
    (("keyword".toList), .keyword),
    (("punctuation".toList), .operator),
    (("entity.name.function".toList), .fn), (("support.function".toList), .fn),
    (("meta.function-call".toList), .fn), (("variable.function".toList), .fn),
    (("entity.name.type".toList), .ty), (("entity.name.class".toList), .ty),
    (("entity.name.struct".toList), .ty), (("entity.name.enum".toList), .ty),
    (("entity.name.interface".toList), .ty), (("entity.name.trait".toList), .ty),
    (("support.type".toList), .ty), (("support.class".toList), .ty),
    (("storage.type".toList), .ty),
    (("storage.modifier".toList), .keyword),
    (("constant.numeric".toList), .number), (("constant.language.boolean".toList), .number),
    (("constant".toList), .constant),
    (("variable.parameter".toList), .var), (("variable.other".toList), .var),
    (("variable.language".toList), .var),
    (("entity.name.tag".toList), .property), (("support.other.property".toList), .property),
    (("meta.object-literal.key".toList), .property),
    (("variable.other.property".toList), .property),
    (("variable.other.object.property".toList), .property),
    (("entity.other.attribute".toList), .attr), (("meta.attribute".toList), .attr),
    (("entity.name.decorator".toList), .attr),
    (("variable".toList), .var) ]

/-- Follows the spec's words (§4.E): lowercase the scope and return the
category of the first row of the priority table whose prefix matches; `none`
when no row matches.  Compared against the source's `scope_to_category`. -/
def specScopeToCategory (scope : List Char) : Option HighlightCategory :=
  (specRows.find? fun row => beginsWith row.1 (scope.map lowerChar)).map fun row => row.2

theorem beginsWith_trans : ∀ {p q s : List Char}, beginsWith p q = true →
    beginsWith q s = true → beginsWith p s = true
  | [], _, _, _, _ => rfl
  | _ :: _, [], _, hp, _ => by cases hp
  | _ :: _, _ :: _, [], _, hq => by cases hq
  | p :: ps, q :: qs, c :: cs, hp, hq => by
    simp only [beginsWith, Bool.and_eq_true, decide_eq_true_eq] at hp hq ⊢
    exact ⟨hp.1.trans hq.1, beginsWith_trans hp.2 hq.2⟩

theorem beginsWith_mutual : ∀ {p q s : List Char}, beginsWith p s = true →
    beginsWith q s = true → beginsWith p q = true ∨ beginsWith q p = true
  | [], _, _, _, _ => .inl rfl
  | _ :: _, [], _, _, _ => .inr rfl
  | _ :: _, _ :: _, [], hp, _ => by cases hp
  | p :: ps, q :: qs, c :: cs, hp, hq => by
    simp only [beginsWith, Bool.and_eq_true, decide_eq_true_eq] at hp hq ⊢
    rcases beginsWith_mutual hp.2 hq.2 with h | h
    · exact .inl ⟨hp.1.trans hq.1.symm, h⟩
    · exact .inr ⟨hq.1.trans hp.1.symm, h⟩

theorem beginsWith_disjoint {p q s : List Char} (hpq : beginsWith p q = false)
    (hqp : beginsWith q p = false) (hp : beginsWith p s = true) :
    beginsWith q s = false := by
  cases hq : beginsWith q s
  · rfl
  · rcases beginsWith_mutual hp hq with h | h
    · rw [h] at hpq
      cases hpq
    · rw [h] at hqp
      cases hqp

theorem beginsWith_false_of_ext {p q s : List Char} (hpq : beginsWith p q = true)
    (hp : beginsWith p s = false) : beginsWith q s = false := by
  cases hq : beginsWith q s
  · rfl
  · rw [beginsWith_trans hpq hq] at hp
    cases hp

set_option maxHeartbeats 2000000 in
theorem scope_to_category_eq_spec (scope : List Char) :
    scope_to_category scope = specScopeToCategory scope := by
  cases h1 : beginsWith ("comment".toList) (scope.map lowerChar) with
  | true =>
    simp only [scope_to_category, specScopeToCategory, specRows, List.find?, h1]
    simp
  | false =>
    cases h2 : beginsWith ("string".toList) (scope.map lowerChar) with
    | true =>
      simp only [scope_to_category, specScopeToCategory, specRows, List.find?, h1, h2]
      simp
    | false =>
      cases h3 : beginsWith ("markup.heading".toList) (scope.map lowerChar) with
      | true =>
        simp only [scope_to_category, specScopeToCategory, specRows, List.find?, h1, h2, h3]
        simp
      | false =>
        cases h4 : beginsWith ("entity.name.section".toList) (scope.map lowerChar) with
        | true =>
          simp only [scope_to_category, specScopeToCategory, specRows, List.find?, h1, h2, h3, h4]
          simp
        | false =>
          cases h5 : beginsWith ("markup.bold".toList) (scope.map lowerChar) with
          | true =>
            simp only [scope_to_category, specScopeToCategory, specRows, List.find?, h1, h2, h3, h4, h5]
            simp
          | false =>
            cases h6 : beginsWith ("markup.italic".toList) (scope.map lowerChar) with
            | true =>
              simp only [scope_to_category, specScopeToCategory, specRows, List.find?, h1, h2, h3, h4, h5, h6]
              simp
            | false =>
              cases h7 : beginsWith ("markup.raw".toList) (scope.map lowerChar) with
              | true =>
                simp only [scope_to_category, specScopeToCategory, specRows, List.find?, h1, h2, h3, h4, h5, h6, h7]
                simp
              | false =>
                cases h8 : beginsWith ("markup.inline.raw".toList) (scope.map lowerChar) with
                | true =>
                  simp only [scope_to_category, specScopeToCategory, specRows, List.find?, h1, h2, h3, h4, h5, h6, h7, h8]
                  simp
                | false =>
                  cases h9 : beginsWith ("markup.underline.link".toList) (scope.map lowerChar) with
                  | true =>
                    simp only [scope_to_category, specScopeToCategory, specRows, List.find?, h1, h2, h3, h4, h5, h6, h7, h8, h9]
                    simp
                  | false =>
                    cases h10 : beginsWith ("markup.underline".toList) (scope.map lowerChar) with
                    | true =>
                      simp only [scope_to_category, specScopeToCategory, specRows, List.find?, h1, h2, h3, h4, h5, h6, h7, h8, h9, h10]
                      simp
                    | false =>
                      cases h11 : beginsWith ("markup.quote".toList) (scope.map lowerChar) with
                      | true =>
                        simp only [scope_to_category, specScopeToCategory, specRows, List.find?, h1, h2, h3, h4, h5, h6, h7, h8, h9, h10, h11]
                        simp
                      | false =>
                        cases h12 : beginsWith ("markup.list".toList) (scope.map lowerChar) with
                        | true =>
                          have hstk : beginsWith ("markup.strikethrough".toList) (scope.map lowerChar) = false :=
                            beginsWith_disjoint (by decide) (by decide) h12
                          simp only [scope_to_category, specScopeToCategory, specRows, List.find?, h1, h2, h3, h4, h5, h6, h7, h8, h9, h10, h11, h12, hstk]
                          simp
                        | false =>
                          cases h13 : beginsWith ("markup.strikethrough".toList) (scope.map lowerChar) with
                          | true =>
                            simp only [scope_to_category, specScopeToCategory, specRows, List.find?, h1, h2, h3, h4, h5, h6, h7, h8, h9, h10, h11, h12, h13]
                            simp
                          | false =>
                            cases h14 : beginsWith ("keyword.control".toList) (scope.map lowerChar) with
                            | true =>
                              have hkopX : beginsWith ("keyword.operator".toList) (scope.map lowerChar) = false :=
                                beginsWith_disjoint (by decide) (by decide) h14
                              have hkwT : beginsWith ("keyword".toList) (scope.map lowerChar) = true :=
                                beginsWith_trans (by decide) h14
                              simp only [scope_to_category, specScopeToCategory, specRows, List.find?, h1, h2, h3, h4, h5, h6, h7, h8, h9, h10, h11, h12, h13, h14, hkopX, hkwT]
                              simp
                            | false =>
                              cases h15 : beginsWith ("keyword.other".toList) (scope.map lowerChar) with
                              | true =>
                                have hkopX : beginsWith ("keyword.operator".toList) (scope.map lowerChar) = false :=
                                  beginsWith_disjoint (by decide) (by decide) h15
                                have hkwT : beginsWith ("keyword".toList) (scope.map lowerChar) = true :=
                                  beginsWith_trans (by decide) h15
                                simp only [scope_to_category, specScopeToCategory, specRows, List.find?, h1, h2, h3, h4, h5, h6, h7, h8, h9, h10, h11, h12, h13, h14, h15, hkopX, hkwT]
                                simp
                              | false =>
                                cases h16 : beginsWith ("keyword.declaration".toList) (scope.map lowerChar) with
                                | true =>
                                  have hkopX : beginsWith ("keyword.operator".toList) (scope.map lowerChar) = false :=
                                    beginsWith_disjoint (by decide) (by decide) h16
                                  have hkwT : beginsWith ("keyword".toList) (scope.map lowerChar) = true :=
                                    beginsWith_trans (by decide) h16
                                  simp only [scope_to_category, specScopeToCategory, specRows, List.find?, h1, h2, h3, h4, h5, h6, h7, h8, h9, h10, h11, h12, h13, h14, h15, h16, hkopX, hkwT]
                                  simp
                                | false =>
                                  cases h17 : beginsWith ("keyword".toList) (scope.map lowerChar) with
                                  | true =>
                                    cases hkop : beginsWith ("keyword.operator".toList) (scope.map lowerChar) with
                                    | true =>
                                      simp only [scope_to_category, specScopeToCategory, specRows, List.find?, h1, h2, h3, h4, h5, h6, h7, h8, h9, h10, h11, h12, h13, h14, h15, h16, h17, hkop]
                                      simp
                                    | false =>
                                      simp only [scope_to_category, specScopeToCategory, specRows, List.find?, h1, h2, h3, h4, h5, h6, h7, h8, h9, h10, h11, h12, h13, h14, h15, h16, h17, hkop]
                                      simp
                                  | false =>
                                    have hkopF : beginsWith ("keyword.operator".toList) (scope.map lowerChar) = false :=
                                      beginsWith_false_of_ext (by decide) h17
                                    cases h18 : beginsWith ("punctuation".toList) (scope.map lowerChar) with
                                    | true =>
                                      simp only [scope_to_category, specScopeToCategory, specRows, List.find?, h1, h2, h3, h4, h5, h6, h7, h8, h9, h10, h11, h12, h13, h14, h15, h16, h17, hkopF, h18]
                                      simp
                                    | false =>
                                      cases h19 : beginsWith ("entity.name.function".toList) (scope.map lowerChar) with
                                      | true =>
                                        simp only [scope_to_category, specScopeToCategory, specRows, List.find?, h1, h2, h3, h4, h5, h6, h7, h8, h9, h10, h11, h12, h13, h14, h15, h16, h17, hkopF, h18, h19]
                                        simp
                                      | false =>
                                        cases h20 : beginsWith ("support.function".toList) (scope.map lowerChar) with
                                        | true =>
                                          simp only [scope_to_category, specScopeToCategory, specRows, List.find?, h1, h2, h3, h4, h5, h6, h7, h8, h9, h10, h11, h12, h13, h14, h15, h16, h17, hkopF, h18, h19, h20]
                                          simp
                                        | false =>
                                          cases h21 : beginsWith ("meta.function-call".toList) (scope.map lowerChar) with
                                          | true =>
                                            simp only [scope_to_category, specScopeToCategory, specRows, List.find?, h1, h2, h3, h4, h5, h6, h7, h8, h9, h10, h11, h12, h13, h14, h15, h16, h17, hkopF, h18, h19, h20, h21]
                                            simp
                                          | false =>
                                            cases h22 : beginsWith ("variable.function".toList) (scope.map lowerChar) with
                                            | true =>
                                              simp only [scope_to_category, specScopeToCategory, specRows, List.find?, h1, h2, h3, h4, h5, h6, h7, h8, h9, h10, h11, h12, h13, h14, h15, h16, h17, hkopF, h18, h19, h20, h21, h22]
                                              simp
                                            | false =>
                                              cases h23 : beginsWith ("entity.name.type".toList) (scope.map lowerChar) with
                                              | true =>
                                                simp only [scope_to_category, specScopeToCategory, specRows, List.find?, h1, h2, h3, h4, h5, h6, h7, h8, h9, h10, h11, h12, h13, h14, h15, h16, h17, hkopF, h18, h19, h20, h21, h22, h23]
                                                simp
                                              | false =>
                                                cases h24 : beginsWith ("entity.name.class".toList) (scope.map lowerChar) with
                                                | true =>
                                                  simp only [scope_to_category, specScopeToCategory, specRows, List.find?, h1, h2, h3, h4, h5, h6, h7, h8, h9, h10, h11, h12, h13, h14, h15, h16, h17, hkopF, h18, h19, h20, h21, h22, h23, h24]
                                                  simp
                                                | false =>
                                                  cases h25 : beginsWith ("entity.name.struct".toList) (scope.map lowerChar) with
                                                  | true =>
                                                    simp only [scope_to_category, specScopeToCategory, specRows, List.find?, h1, h2, h3, h4, h5, h6, h7, h8, h9, h10, h11, h12, h13, h14, h15, h16, h17, hkopF, h18, h19, h20, h21, h22, h23, h24, h25]
                                                    simp
                                                  | false =>
                                                    cases h26 : beginsWith ("entity.name.enum".toList) (scope.map lowerChar) with
                                                    | true =>
                                                      simp only [scope_to_category, specScopeToCategory, specRows, List.find?, h1, h2, h3, h4, h5, h6, h7, h8, h9, h10, h11, h12, h13, h14, h15, h16, h17, hkopF, h18, h19, h20, h21, h22, h23, h24, h25, h26]
                                                      simp
                                                    | false =>
                                                      cases h27 : beginsWith ("entity.name.interface".toList) (scope.map lowerChar) with
                                                      | true =>
                                                        simp only [scope_to_category, specScopeToCategory, specRows, List.find?, h1, h2, h3, h4, h5, h6, h7, h8, h9, h10, h11, h12, h13, h14, h15, h16, h17, hkopF, h18, h19, h20, h21, h22, h23, h24, h25, h26, h27]
                                                        simp
                                                      | false =>
                                                        cases h28 : beginsWith ("entity.name.trait".toList) (scope.map lowerChar) with
                                                        | true =>
                                                          simp only [scope_to_category, specScopeToCategory, specRows, List.find?, h1, h2, h3, h4, h5, h6, h7, h8, h9, h10, h11, h12, h13, h14, h15, h16, h17, hkopF, h18, h19, h20, h21, h22, h23, h24, h25, h26, h27, h28]
                                                          simp
                                                        | false =>
                                                          cases h29 : beginsWith ("support.type".toList) (scope.map lowerChar) with
                                                          | true =>
                                                            simp only [scope_to_category, specScopeToCategory, specRows, List.find?, h1, h2, h3, h4, h5, h6, h7, h8, h9, h10, h11, h12, h13, h14, h15, h16, h17, hkopF, h18, h19, h20, h21, h22, h23, h24, h25, h26, h27, h28, h29]
                                                            simp
                                                          | false =>
                                                            cases h30 : beginsWith ("support.class".toList) (scope.map lowerChar) with
                                                            | true =>
                                                              simp only [scope_to_category, specScopeToCategory, specRows, List.find?, h1, h2, h3, h4, h5, h6, h7, h8, h9, h10, h11, h12, h13, h14, h15, h16, h17, hkopF, h18, h19, h20, h21, h22, h23, h24, h25, h26, h27, h28, h29, h30]
                                                              simp
                                                            | false =>
                                                              cases h31 : beginsWith ("storage.type".toList) (scope.map lowerChar) with
                                                              | true =>
                                                                simp only [scope_to_category, specScopeToCategory, specRows, List.find?, h1, h2, h3, h4, h5, h6, h7, h8, h9, h10, h11, h12, h13, h14, h15, h16, h17, hkopF, h18, h19, h20, h21, h22, h23, h24, h25, h26, h27, h28, h29, h30, h31]
                                                                simp
                                                              | false =>
                                                                cases h32 : beginsWith ("storage.modifier".toList) (scope.map lowerChar) with
                                                                | true =>
                                                                  simp only [scope_to_category, specScopeToCategory, specRows, List.find?, h1, h2, h3, h4, h5, h6, h7, h8, h9, h10, h11, h12, h13, h14, h15, h16, h17, hkopF, h18, h19, h20, h21, h22, h23, h24, h25, h26, h27, h28, h29, h30, h31, h32]
                                                                  simp
                                                                | false =>
                                                                  cases h33 : beginsWith ("constant.numeric".toList) (scope.map lowerChar) with
                                                                  | true =>
                                                                    simp only [scope_to_category, specScopeToCategory, specRows, List.find?, h1, h2, h3, h4, h5, h6, h7, h8, h9, h10, h11, h12, h13, h14, h15, h16, h17, hkopF, h18, h19, h20, h21, h22, h23, h24, h25, h26, h27, h28, h29, h30, h31, h32, h33]
                                                                    simp
                                                                  | false =>
                                                                    cases h34 : beginsWith ("constant.language.boolean".toList) (scope.map lowerChar) with
                                                                    | true =>
                                                                      simp only [scope_to_category, specScopeToCategory, specRows, List.find?, h1, h2, h3, h4, h5, h6, h7, h8, h9, h10, h11, h12, h13, h14, h15, h16, h17, hkopF, h18, h19, h20, h21, h22, h23, h24, h25, h26, h27, h28, h29, h30, h31, h32, h33, h34]
                                                                      simp
                                                                    | false =>
                                                                      cases h35 : beginsWith ("constant".toList) (scope.map lowerChar) with
                                                                      | true =>
                                                                        simp only [scope_to_category, specScopeToCategory, specRows, List.find?, h1, h2, h3, h4, h5, h6, h7, h8, h9, h10, h11, h12, h13, h14, h15, h16, h17, hkopF, h18, h19, h20, h21, h22, h23, h24, h25, h26, h27, h28, h29, h30, h31, h32, h33, h34, h35]
                                                                        simp
                                                                      | false =>
                                                                        cases h36 : beginsWith ("variable.parameter".toList) (scope.map lowerChar) with
                                                                        | true =>
                                                                          simp only [scope_to_category, specScopeToCategory, specRows, List.find?, h1, h2, h3, h4, h5, h6, h7, h8, h9, h10, h11, h12, h13, h14, h15, h16, h17, hkopF, h18, h19, h20, h21, h22, h23, h24, h25, h26, h27, h28, h29, h30, h31, h32, h33, h34, h35, h36]
                                                                          simp
                                                                        | false =>
                                                                          cases h37 : beginsWith ("variable.other".toList) (scope.map lowerChar) with
                                                                          | true =>
                                                                            simp only [scope_to_category, specScopeToCategory, specRows, List.find?, h1, h2, h3, h4, h5, h6, h7, h8, h9, h10, h11, h12, h13, h14, h15, h16, h17, hkopF, h18, h19, h20, h21, h22, h23, h24, h25, h26, h27, h28, h29, h30, h31, h32, h33, h34, h35, h36, h37]
                                                                            simp
                                                                          | false =>
                                                                            have hvopF : beginsWith ("variable.other.property".toList) (scope.map lowerChar) = false :=
                                                                              beginsWith_false_of_ext (by decide) h37
                                                                            have hvoopF : beginsWith ("variable.other.object.property".toList) (scope.map lowerChar) = false :=
                                                                              beginsWith_false_of_ext (by decide) h37
                                                                            cases h38 : beginsWith ("variable.language".toList) (scope.map lowerChar) with
                                                                            | true =>
                                                                              simp only [scope_to_category, specScopeToCategory, specRows, List.find?, h1, h2, h3, h4, h5, h6, h7, h8, h9, h10, h11, h12, h13, h14, h15, h16, h17, hkopF, h18, h19, h20, h21, h22, h23, h24, h25, h26, h27, h28, h29, h30, h31, h32, h33, h34, h35, h36, h37, hvopF, hvoopF, h38]
                                                                              simp
                                                                            | false =>
                                                                              cases h39 : beginsWith ("entity.name.tag".toList) (scope.map lowerChar) with
                                                                              | true =>
                                                                                simp only [scope_to_category, specScopeToCategory, specRows, List.find?, h1, h2, h3, h4, h5, h6, h7, h8, h9, h10, h11, h12, h13, h14, h15, h16, h17, hkopF, h18, h19, h20, h21, h22, h23, h24, h25, h26, h27, h28, h29, h30, h31, h32, h33, h34, h35, h36, h37, hvopF, hvoopF, h38, h39]
                                                                                simp
                                                                              | false =>
                                                                                cases h40 : beginsWith ("support.other.property".toList) (scope.map lowerChar) with
                                                                                | true =>
                                                                                  simp only [scope_to_category, specScopeToCategory, specRows, List.find?, h1, h2, h3, h4, h5, h6, h7, h8, h9, h10, h11, h12, h13, h14, h15, h16, h17, hkopF, h18, h19, h20, h21, h22, h23, h24, h25, h26, h27, h28, h29, h30, h31, h32, h33, h34, h35, h36, h37, hvopF, hvoopF, h38, h39, h40]
                                                                                  simp
                                                                                | false =>
                                                                                  cases h41 : beginsWith ("meta.object-literal.key".toList) (scope.map lowerChar) with
                                                                                  | true =>
                                                                                    simp only [scope_to_category, specScopeToCategory, specRows, List.find?, h1, h2, h3, h4, h5, h6, h7, h8, h9, h10, h11, h12, h13, h14, h15, h16, h17, hkopF, h18, h19, h20, h21, h22, h23, h24, h25, h26, h27, h28, h29, h30, h31, h32, h33, h34, h35, h36, h37, hvopF, hvoopF, h38, h39, h40, h41]
                                                                                    simp
                                                                                  | false =>
                                                                                    cases h42 : beginsWith ("entity.other.attribute".toList) (scope.map lowerChar) with
                                                                                    | true =>
                                                                                      simp only [scope_to_category, specScopeToCategory, specRows, List.find?, h1, h2, h3, h4, h5, h6, h7, h8, h9, h10, h11, h12, h13, h14, h15, h16, h17, hkopF, h18, h19, h20, h21, h22, h23, h24, h25, h26, h27, h28, h29, h30, h31, h32, h33, h34, h35, h36, h37, hvopF, hvoopF, h38, h39, h40, h41, h42]
                                                                                      simp
                                                                                    | false =>
                                                                                      cases h43 : beginsWith ("meta.attribute".toList) (scope.map lowerChar) with
                                                                                      | true =>
                                                                                        simp only [scope_to_category, specScopeToCategory, specRows, List.find?, h1, h2, h3, h4, h5, h6, h7, h8, h9, h10, h11, h12, h13, h14, h15, h16, h17, hkopF, h18, h19, h20, h21, h22, h23, h24, h25, h26, h27, h28, h29, h30, h31, h32, h33, h34, h35, h36, h37, hvopF, hvoopF, h38, h39, h40, h41, h42, h43]
                                                                                        simp
                                                                                      | false =>
                                                                                        cases h44 : beginsWith ("entity.name.decorator".toList) (scope.map lowerChar) with
                                                                                        | true =>
                                                                                          simp only [scope_to_category, specScopeToCategory, specRows, List.find?, h1, h2, h3, h4, h5, h6, h7, h8, h9, h10, h11, h12, h13, h14, h15, h16, h17, hkopF, h18, h19, h20, h21, h22, h23, h24, h25, h26, h27, h28, h29, h30, h31, h32, h33, h34, h35, h36, h37, hvopF, hvoopF, h38, h39, h40, h41, h42, h43, h44]
                                                                                          simp
                                                                                        | false =>
                                                                                          cases h45 : beginsWith ("variable".toList) (scope.map lowerChar) with
                                                                                          | true =>
                                                                                            simp only [scope_to_category, specScopeToCategory, specRows, List.find?, h1, h2, h3, h4, h5, h6, h7, h8, h9, h10, h11, h12, h13, h14, h15, h16, h17, hkopF, h18, h19, h20, h21, h22, h23, h24, h25, h26, h27, h28, h29, h30, h31, h32, h33, h34, h35, h36, h37, hvopF, hvoopF, h38, h39, h40, h41, h42, h43, h44, h45]
                                                                                            simp
                                                                                          | false =>
                                                                                            simp only [scope_to_category, specScopeToCategory, specRows, List.find?, h1, h2, h3, h4, h5, h6, h7, h8, h9, h10, h11, h12, h13, h14, h15, h16, h17, hkopF, h18, h19, h20, h21, h22, h23, h24, h25, h26, h27, h28, h29, h30, h31, h32, h33, h34, h35, h36, h37, hvopF, hvoopF, h38, h39, h40, h41, h42, h43, h44, h45]
                                                                                            simp

theorem scope_keyword_operator (scope : List Char)
    (hkop : beginsWith ("keyword.operator".toList) (scope.map lowerChar) = true) :
    scope_to_category scope = some HighlightCategory.operator := by
  have e1 : beginsWith ("comment".toList) (scope.map lowerChar) = false :=
    beginsWith_disjoint (by decide) (by decide) hkop
  have e2 : beginsWith ("string".toList) (scope.map lowerChar) = false :=
    beginsWith_disjoint (by decide) (by decide) hkop
  have e3 : beginsWith ("markup.heading".toList) (scope.map lowerChar) = false :=
    beginsWith_disjoint (by decide) (by decide) hkop
  have e4 : beginsWith ("entity.name.section".toList) (scope.map lowerChar) = false :=
    beginsWith_disjoint (by decide) (by decide) hkop
  have e5 : beginsWith ("markup.bold".toList) (scope.map lowerChar) = false :=
    beginsWith_disjoint (by decide) (by decide) hkop
  have e6 : beginsWith ("markup.italic".toList) (scope.map lowerChar) = false :=
    beginsWith_disjoint (by decide) (by decide) hkop
  have e7 : beginsWith ("markup.raw".toList) (scope.map lowerChar) = false :=
    beginsWith_disjoint (by decide) (by decide) hkop
  have e8 : beginsWith ("markup.inline.raw".toList) (scope.map lowerChar) = false :=
    beginsWith_disjoint (by decide) (by decide) hkop
  have e9 : beginsWith ("markup.underline.link".toList) (scope.map lowerChar) = false :=
    beginsWith_disjoint (by decide) (by decide) hkop
  have e10 : beginsWith ("markup.underline".toList) (scope.map lowerChar) = false :=
    beginsWith_disjoint (by decide) (by decide) hkop
  have e11 : beginsWith ("markup.quote".toList) (scope.map lowerChar) = false :=
    beginsWith_disjoint (by decide) (by decide) hkop
  have e12 : beginsWith ("markup.list".toList) (scope.map lowerChar) = false :=
    beginsWith_disjoint (by decide) (by decide) hkop
  have e13 : beginsWith ("markup.strikethrough".toList) (scope.map lowerChar) = false :=
    beginsWith_disjoint (by decide) (by decide) hkop
  simp only [scope_to_category, e1, e2, e3, e4, e5, e6, e7, e8, e9, e10, e11, e12, e13, hkop]
  simp

theorem scope_keyword_nonop (scope : List Char)
    (hkw : beginsWith ("keyword".toList) (scope.map lowerChar) = true)
    (hkop : beginsWith ("keyword.operator".toList) (scope.map lowerChar) = false) :
    scope_to_category scope = some HighlightCategory.keyword := by
  have e1 : beginsWith ("comment".toList) (scope.map lowerChar) = false :=
    beginsWith_disjoint (by decide) (by decide) hkw
  have e2 : beginsWith ("string".toList) (scope.map lowerChar) = false :=
    beginsWith_disjoint (by decide) (by decide) hkw
  have e3 : beginsWith ("markup.heading".toList) (scope.map lowerChar) = false :=
    beginsWith_disjoint (by decide) (by decide) hkw
  have e4 : beginsWith ("entity.name.section".toList) (scope.map lowerChar) = false :=
    beginsWith_disjoint (by decide) (by decide) hkw
  have e5 : beginsWith ("markup.bold".toList) (scope.map lowerChar) = false :=
    beginsWith_disjoint (by decide) (by decide) hkw
  have e6 : beginsWith ("markup.italic".toList) (scope.map lowerChar) = false :=
    beginsWith_disjoint (by decide) (by decide) hkw
  have e7 : beginsWith ("markup.raw".toList) (scope.map lowerChar) = false :=
    beginsWith_disjoint (by decide) (by decide) hkw
  have e8 : beginsWith ("markup.inline.raw".toList) (scope.map lowerChar) = false :=
    beginsWith_disjoint (by decide) (by decide) hkw
  have e9 : beginsWith ("markup.underline.link".toList) (scope.map lowerChar) = false :=
    beginsWith_disjoint (by decide) (by decide) hkw
  have e10 : beginsWith ("markup.underline".toList) (scope.map lowerChar) = false :=
    beginsWith_disjoint (by decide) (by decide) hkw
  have e11 : beginsWith ("markup.quote".toList) (scope.map lowerChar) = false :=
    beginsWith_disjoint (by decide) (by decide) hkw
  have e12 : beginsWith ("markup.list".toList) (scope.map lowerChar) = false :=
    beginsWith_disjoint (by decide) (by decide) hkw
  have e13 : beginsWith ("markup.strikethrough".toList) (scope.map lowerChar) = false :=
    beginsWith_disjoint (by decide) (by decide) hkw
  simp only [scope_to_category, e1, e2, e3, e4, e5, e6, e7, e8, e9, e10, e11, e12, e13, hkw, hkop]
  simp

/-- C9: the source's `scope_to_category` returns, for every input, the
category of the first row of the spec's §4.E priority table whose prefix
matches the lowercased input, and `none` when no row matches (so the
comment/string/markup rows are indeed tested before the keyword rows); in
particular every string whose lowercase form starts with `keyword.operator`
maps to Operator and every other string starting with `keyword` maps to
Keyword. -/
theorem claim_C9_scope_table (scope : List Char) :
    scope_to_category scope = specScopeToCategory scope
    ∧ (beginsWith ("keyword.operator".toList) (scope.map lowerChar) = true →
        scope_to_category scope = some HighlightCategory.operator)
    ∧ (beginsWith ("keyword".toList) (scope.map lowerChar) = true →
        beginsWith ("keyword.operator".toList) (scope.map lowerChar) = false →
        scope_to_category scope = some HighlightCategory.keyword) :=
  ⟨scope_to_category_eq_spec scope, scope_keyword_operator scope,
    scope_keyword_nonop scope⟩

theorem claim_C9_witness :
    scope_to_category ("keyword.operator.arithmetic".toList)
      = some HighlightCategory.operator
    ∧ scope_to_category ("Keyword.Control.if".toList)
      = some HighlightCategory.keyword :=
  ⟨(claim_C9_scope_table ("keyword.operator.arithmetic".toList)).2.1 (by decide),
    (claim_C9_scope_table ("Keyword.Control.if".toList)).2.2 (by decide) (by decide)⟩

/-- Modelled from the external `syntect` library's `ScopeStackOp`: push a
scope, pop a number of scopes, or do nothing (the remaining variants do not
affect category lookup). -/
inductive ScopeOp where
  | push (scope : List Char)
  | popOp (count : Nat)
  | noop
  deriving DecidableEq, Repr

/-- `ScopeStack::apply` (external `syntect`): the stack grows at the end. -/
def applyScopeOp (stack : List (List Char)) : ScopeOp → List (List Char)
  | .push sc => stack ++ [sc]
  | .popOp k => stack.take (stack.length - k)
  | .noop => stack

/-- `scope_stack_to_category` (lines 302–311): walk the scope stack from the
top (most specific) down; return the first `some`. -/
def scope_stack_to_category (scopes : List (List Char)) : Option HighlightCategory :=
  scopes.reverse.findSome? scope_to_category

/-- Modelled from the external `syntect` parser interface used by
`parse_region`: an opaque parse state `σ` with its initial value
(`ParseState::new(syntax)`), and `parse_line`, which returns scope
operations at byte offsets within the passed line (`some ops`) or an error
(`none`), along with the advanced state. -/
structure LineParser (σ : Type) where
  initState : σ
  parseLine : σ → List Nat → Option (List (Nat × ScopeOp)) × σ

/-- A cached `(byte-range, category)` span (`CachedSpan`, lines 26–32). -/
structure CachedSpan where
  rangeStart : Nat
  rangeEnd : Nat
  category : HighlightCategory
  deriving DecidableEq, Repr

/-- Byte-level UTF-8 validation, as performed by `std::str::from_utf8`
(RFC 3629 table: continuation ranges, surrogate and overlong exclusions). -/
def utf8ContByte (b : Nat) : Bool := 128 ≤ b && b ≤ 191

def utf8Valid : List Nat → Bool
  | [] => true
  | b :: rest =>
    if b ≤ 127 then utf8Valid rest
    else if 194 ≤ b && b ≤ 223 then
      match rest with
      | c1 :: r => utf8ContByte c1 && utf8Valid r
      | [] => false
    else if b = 224 then
      match rest with
      | c1 :: c2 :: r => (160 ≤ c1 && c1 ≤ 191) && utf8ContByte c2 && utf8Valid r
      | _ => false
    else if 225 ≤ b && b ≤ 236 then
      match rest with
      | c1 :: c2 :: r => utf8ContByte c1 && utf8ContByte c2 && utf8Valid r
      | _ => false
    else if b = 237 then
      match rest with
      | c1 :: c2 :: r => (128 ≤ c1 && c1 ≤ 159) && utf8ContByte c2 && utf8Valid r
      | _ => false
    else if 238 ≤ b && b ≤ 239 then
      match rest with
      | c1 :: c2 :: r => utf8ContByte c1 && utf8ContByte c2 && utf8Valid r
      | _ => false
    else if b = 240 then
      match rest with
      | c1 :: c2 :: c3 :: r =>
        (144 ≤ c1 && c1 ≤ 191) && utf8ContByte c2 && utf8ContByte c3 && utf8Valid r
      | _ => false
    else if 241 ≤ b && b ≤ 243 then
      match rest with
      | c1 :: c2 :: c3 :: r =>
        utf8ContByte c1 && utf8ContByte c2 && utf8ContByte c3 && utf8Valid r
      | _ => false
    else if b = 244 then
      match rest with
      | c1 :: c2 :: c3 :: r =>
        (128 ≤ c1 && c1 ≤ 143) && utf8ContByte c2 && utf8ContByte c3 && utf8Valid r
      | _ => false
    else false

/-- The line-boundary scan of `parse_region` (lines 180–194): byte length of
the line starting at the current position, including its real terminator
(`\n`, `\r\n`, or lone `\r`), or running to the end of the window. -/
def lineEndFrom : List Nat → Nat
  | [] => 0
  | b :: rest =>
    if b = 10 then 1
    else if b = 13 then
      if rest.head? = some 10 then 2 else 1
    else 1 + lineEndFrom rest

/-- `line_str.trim_end_matches(&['\r', '\n'][..])` (line 211). -/
def stripTrailingCrLf (l : List Nat) : List Nat :=
  (l.reverse.dropWhile fun b => b = 13 || b = 10).reverse

/-- The span-emission loop over one line's parse operations
(lines 231–253): clamp each op offset to the line content length, emit a
span from the previous offset under the current stack's category, then apply
the op; returns the emitted spans, the final `syntect_offset`, and the final
scope stack. -/
def emitOps (lineContentLen currentOffset : Nat) :
    List (Nat × ScopeOp) → Nat → List (List Char) →
      List CachedSpan × Nat × List (List Char)
  | [], syntectOffset, scopes => ([], syntectOffset, scopes)
  | (opOffset, op) :: ops, syntectOffset, scopes =>
    let clamped := min opOffset lineContentLen
    let newSpans :=
      if syntectOffset < clamped then
        match scope_stack_to_category scopes with
        | some cat =>
          if currentOffset + syntectOffset < currentOffset + clamped then
            [⟨currentOffset + syntectOffset, currentOffset + clamped, cat⟩]
          else []
        | none => []
      else []
    let rest := emitOps lineContentLen currentOffset ops clamped (applyScopeOp scopes op)
    (newSpans ++ rest.1, rest.2)

/-- The per-line loop of `parse_region` (lines 176–272).  One iteration
consumes at least one byte, so the recursion depth is bounded by the window
length; the structural `fuel` argument makes that bound explicit (callers
pass the window length; the `fuel = 0` fallback is unreachable).  The
per-line UTF-8 check (lines 201–208) and the parse-error branch
(lines 219–226) skip the line, advance `current_offset` by the line's full
byte length, and continue. -/
def parseLinesAux {σ : Type} (P : LineParser σ) :
    Nat → List Nat → σ → List (List Char) → Nat → List CachedSpan
  | 0, _, _, _, _ => []
  | _ + 1, [], _, _, _ => []
  | fuel + 1, content@(_b :: _rest), st, scopes, currentOffset =>
    let k := lineEndFrom content
    let lineBytes := content.take k
    let remaining := content.drop k
    if utf8Valid lineBytes = false then
      parseLinesAux P fuel remaining st scopes (currentOffset + k)
    else
      let lineContent := stripTrailingCrLf lineBytes
      let lineForSyntect :=
        if !remaining.isEmpty || lineBytes.getLast? = some 10 then lineContent ++ [10]
        else lineContent
      match P.parseLine st lineForSyntect with
      | (none, st') => parseLinesAux P fuel remaining st' scopes (currentOffset + k)
      | (some ops, st') =>
        let emitted := emitOps lineContent.length currentOffset ops 0 scopes
        let trailing :=
          if emitted.2.1 < lineContent.length then
            match scope_stack_to_category emitted.2.2 with
            | some cat =>
              if currentOffset + emitted.2.1 < currentOffset + lineContent.length then
                [⟨currentOffset + emitted.2.1, currentOffset + lineContent.length, cat⟩]
              else []
            | none => []
          else []
        (emitted.1 ++ trailing)
          ++ parseLinesAux P fuel remaining st' emitted.2.2 (currentOffset + k)

/-- `merge_adjacent_spans` (lines 456–477): merge consecutive spans with the
same category whose ranges touch.  The source's in-place write/read pointer
loop is expressed as the equivalent accumulator recursion. -/
def mergeAux : CachedSpan → List CachedSpan → List CachedSpan
  | cur, [] => [cur]
  | cur, s :: rest =>
    if cur.category = s.category ∧ cur.rangeEnd = s.rangeStart then
      mergeAux ⟨cur.rangeStart, s.rangeEnd, cur.category⟩ rest
    else cur :: mergeAux s rest

def merge_adjacent_spans : List CachedSpan → List CachedSpan
  | [] => []
  | s :: rest => mergeAux s rest

/-- `TextMateHighlighter::parse_region` (lines 151–278).  The buffer slice
`buffer.slice_bytes(start..end)` is modelled from the spec's `slice`
operation as `drop`/`take`.  If the whole window fails UTF-8 validation, the
function warns and returns the empty span list (lines 157–167) — before any
line is examined. -/
def parse_region {σ : Type} (P : LineParser σ) (buffer : List Nat)
    (startByte endByte : Nat) : List CachedSpan :=
  let content := (buffer.drop startByte).take (endByte - startByte)
  if utf8Valid content = false then []
  else
    merge_adjacent_spans
      (parseLinesAux P content.length content P.initState [] startByte)

/-- Follows the spec's words for the invalid-UTF-8 edge case (§4.F: "skip
the offending line, advance the output cursor by its byte length,
continue"): identical to `parse_region` except that the window is not
validated as a whole, so an invalid line is skipped by the per-line check
while the remaining lines still produce spans.  Compared against the
source's `parse_region`, which abandons the whole window instead. -/
def parse_region_spec {σ : Type} (P : LineParser σ) (buffer : List Nat)
    (startByte endByte : Nat) : List CachedSpan :=
  let content := (buffer.drop startByte).take (endByte - startByte)
  merge_adjacent_spans
    (parseLinesAux P content.length content P.initState [] startByte)

/-- `TextMateCache` (lines 34–41). -/
structure TextMateCache where
  rangeStart : Nat
  rangeEnd : Nat
  spans : List CachedSpan
  deriving DecidableEq, Repr

/-- The mutable highlighter fields of `TextMateHighlighter` (lines 44–53):
the optional span cache and the last observed buffer length. -/
structure HighlighterState where
  cache : Option TextMateCache
  lastBufferLen : Nat
  deriving DecidableEq, Repr

/-- `HighlightSpan` (from `primitives/highlighter.rs`, not under `src/`):
a byte range with a resolved color; colors are opaque naturals here and the
theme is a lookup function. -/
structure HighlightSpan where
  rangeStart : Nat
  rangeEnd : Nat
  color : Nat
  deriving DecidableEq, Repr

/-- `MAX_PARSE_BYTES` (line 23). -/
def MAX_PARSE_BYTES : Nat := 1024 * 1024

/-- The cache test of `highlight_viewport` (lines 94–98): a cache hit needs
`cache.range.start ≤ vp_start`, `vp_end ≤ cache.range.end`, and
`last_buffer_len = buffer.len()`. -/
def cacheHit (hs : HighlighterState) (bufferLen vpStart vpEnd : Nat) :
    Option TextMateCache :=
  match hs.cache with
  | some cache =>
    if cache.rangeStart ≤ vpStart ∧ vpEnd ≤ cache.rangeEnd
        ∧ hs.lastBufferLen = bufferLen then some cache
    else none
  | none => none

/-- `TextMateHighlighter::highlight_viewport` (lines 85–148), returning the
produced spans together with the updated highlighter state.  On a cache hit
the cached spans are filtered to those overlapping the viewport and colored;
on a miss the extended range is parsed (unless it exceeds
`MAX_PARSE_BYTES`, which returns empty without touching the cache), the
cache is replaced wholesale, and the same overlap filter is applied. -/
def highlight_viewport {σ : Type} (P : LineParser σ) (hs : HighlighterState)
    (buffer : List Nat) (viewportStart viewportEnd : Nat)
    (theme : HighlightCategory → Nat) (contextBytes : Nat) :
    List HighlightSpan × HighlighterState :=
  match cacheHit hs buffer.length viewportStart viewportEnd with
  | some cache =>
    ((cache.spans.filter fun span =>
        span.rangeStart < viewportEnd && viewportStart < span.rangeEnd).map
      fun span => ⟨span.rangeStart, span.rangeEnd, theme span.category⟩, hs)
  | none =>
    let parseStart := viewportStart - contextBytes
    let parseEnd := min (viewportEnd + contextBytes) buffer.length
    if MAX_PARSE_BYTES < parseEnd - parseStart then ([], hs)
    else
      let cachedSpans := parse_region P buffer parseStart parseEnd
      let hs' : HighlighterState := ⟨some ⟨parseStart, parseEnd, cachedSpans⟩, buffer.length⟩
      ((cachedSpans.filter fun span =>
          span.rangeStart < viewportEnd && viewportStart < span.rangeEnd).map
        fun span => ⟨span.rangeStart, span.rangeEnd, theme span.category⟩, hs')

/-- A concrete trivial parser: opaque state `Unit`, no ops on any line. -/
def trivialParser : LineParser Unit := ⟨(), fun s _ => (some [], s)⟩

/-- A concrete parser that pushes the `keyword` scope at offset 0 of every
line. -/
def keywordParser : LineParser Unit :=
  ⟨(), fun s _ => (some [(0, ScopeOp.push ("keyword".toList))], s)⟩

/-- C7 counterexample: the claim fails because `parse_region` validates the
whole window's UTF-8 up front (lines 156–167) and returns the empty span
list when it fails — the per-line skip branch is never reached.  On the
window `"a\xFF\nb"` (bytes `[97, 255, 10, 98]`) whose first line is invalid
UTF-8, the source returns no spans at all, while the spec's skip-the-line
behaviour (modelled by `parse_region_spec`) still produces the span for the
valid second line. -/
theorem claim_C7_counterexample :
    parse_region keywordParser [97, 255, 10, 98] 0 4 = []
    ∧ parse_region_spec keywordParser [97, 255, 10, 98] 0 4
        = [⟨3, 4, HighlightCategory.keyword⟩] :=
  ⟨by decide, by decide⟩

/-- C7 (amended): when the parse window is not valid UTF-8 as a whole — in
particular whenever any of its lines is invalid — `parse_region` abandons
the entire window and returns the empty span list (for every parser); only
fully valid windows are parsed line by line. -/
theorem claim_C7_amended {σ : Type} (P : LineParser σ) (buffer : List Nat)
    (startByte endByte : Nat)
    (h : utf8Valid ((buffer.drop startByte).take (endByte - startByte)) = false) :
    parse_region P buffer startByte endByte = [] := by
  unfold parse_region
  simp [h]

theorem claim_C7_amended_witness :
    parse_region keywordParser [97, 255, 10, 98] 0 4 = [] :=
  claim_C7_amended keywordParser [97, 255, 10, 98] 0 4 (by decide)

/-- C8 counterexample: the claim fails because both the cache-hit and
cache-miss paths filter spans with
`span.start < vp_end && span.end > vp_start` (lines 103–105 and 142), which
for an empty viewport `vp_start = vp_end = v` keeps every span strictly
containing `v`.  With a valid cache over `0..10` holding one span `0..10`
and buffer length 10, the empty viewport `(5, 5)` returns that span, not the
empty list. -/
theorem claim_C8_counterexample :
    (highlight_viewport trivialParser
        ⟨some ⟨0, 10, [⟨0, 10, HighlightCategory.keyword⟩]⟩, 10⟩
        (List.replicate 10 97) 5 5 (fun _ => 0) 4).1 = [⟨0, 10, 0⟩]
    ∧ (highlight_viewport trivialParser
        ⟨some ⟨0, 10, [⟨0, 10, HighlightCategory.keyword⟩]⟩, 10⟩
        (List.replicate 10 97) 5 5 (fun _ => 0) 4).1 ≠ [] :=
  ⟨by decide, by decide⟩

/-- C8 (amended): for an empty viewport (`vp_start = vp_end = v`),
`highlight_viewport` returns precisely the themed images of the relevant
spans that strictly contain `v`: every returned span strictly contains `v`
(soundness, over every cache state and path), and conversely every span of
the valid cache (on a hit) and every span of the freshly parsed region (on
a miss within `MAX_PARSE_BYTES`) that strictly contains `v` is returned
(completeness).  The result is therefore empty exactly when no such span
exists, not unconditionally. -/
theorem claim_C8_amended {σ : Type} (P : LineParser σ) (hs : HighlighterState)
    (buffer : List Nat) (v : Nat) (theme : HighlightCategory → Nat) (ctx : Nat) :
    (∀ sp ∈ (highlight_viewport P hs buffer v v theme ctx).1,
        sp.rangeStart < v ∧ v < sp.rangeEnd)
    ∧ (∀ cache, cacheHit hs buffer.length v v = some cache →
        ∀ cs ∈ cache.spans, cs.rangeStart < v → v < cs.rangeEnd →
          (⟨cs.rangeStart, cs.rangeEnd, theme cs.category⟩ : HighlightSpan)
            ∈ (highlight_viewport P hs buffer v v theme ctx).1)
    ∧ (cacheHit hs buffer.length v v = none →
        min (v + ctx) buffer.length - (v - ctx) ≤ MAX_PARSE_BYTES →
        ∀ cs ∈ parse_region P buffer (v - ctx) (min (v + ctx) buffer.length),
          cs.rangeStart < v → v < cs.rangeEnd →
          (⟨cs.rangeStart, cs.rangeEnd, theme cs.category⟩ : HighlightSpan)
            ∈ (highlight_viewport P hs buffer v v theme ctx).1) := by
  refine ⟨?_, ?_, ?_⟩
  · intro sp hmem
    unfold highlight_viewport at hmem
    rcases hhit : cacheHit hs buffer.length v v with _ | cache
    · rw [hhit] at hmem
      by_cases hbig : MAX_PARSE_BYTES < min (v + ctx) buffer.length - (v - ctx)
      · simp only [if_pos hbig, List.not_mem_nil] at hmem
      · simp only [if_neg hbig, List.mem_map] at hmem
        obtain ⟨cs, hcs, rfl⟩ := hmem
        simp only [List.mem_filter, Bool.and_eq_true, decide_eq_true_eq] at hcs
        exact ⟨hcs.2.1, hcs.2.2⟩
    · rw [hhit] at hmem
      simp only [List.mem_map] at hmem
      obtain ⟨cs, hcs, rfl⟩ := hmem
      simp only [List.mem_filter, Bool.and_eq_true, decide_eq_true_eq] at hcs
      exact ⟨hcs.2.1, hcs.2.2⟩
  · intro cache hcache cs hcs h1 h2
    unfold highlight_viewport
    rw [hcache]
    simp only [List.mem_map]
    refine ⟨cs, List.mem_filter.mpr ⟨hcs, ?_⟩, rfl⟩
    simp only [Bool.and_eq_true, decide_eq_true_eq]
    exact ⟨h1, h2⟩
  · intro hnone hsmall cs hcs h1 h2
    unfold highlight_viewport
    rw [hnone]
    rw [if_neg (by omega : ¬ MAX_PARSE_BYTES < min (v + ctx) buffer.length - (v - ctx))]
    simp only [List.mem_map]
    refine ⟨cs, List.mem_filter.mpr ⟨hcs, ?_⟩, rfl⟩
    simp only [Bool.and_eq_true, decide_eq_true_eq]
    exact ⟨h1, h2⟩

theorem claim_C8_amended_witness :
    (⟨0, 10, 0⟩ : HighlightSpan)
      ∈ (highlight_viewport trivialParser
          ⟨some ⟨0, 10, [⟨0, 10, HighlightCategory.keyword⟩]⟩, 10⟩
          (List.replicate 10 97) 5 5 (fun _ => 0) 4).1 :=
  (claim_C8_amended trivialParser
      ⟨some ⟨0, 10, [⟨0, 10, HighlightCategory.keyword⟩]⟩, 10⟩
      (List.replicate 10 97) 5 (fun _ => 0) 4).2.1
    ⟨0, 10, [⟨0, 10, HighlightCategory.keyword⟩]⟩ (by decide)
    ⟨0, 10, HighlightCategory.keyword⟩ (by decide) (by decide) (by decide)

/-! ## Text buffer (`src/text_buffer.rs`)

`text_buffer.rs` is under `src/`, but the `piece_tree` module it builds on
(`PieceTree`, `StringBuffer`, `BufferLocation`, `PieceInfo`, `Cursor`) is
not; those are modelled from the spec (§3 Piece / Piece tree, §4.A, §4.C).
Cursors are modelled as plain byte offsets. -/

/-- Modelled from the spec: a piece's `location` names either the original
stored arena or one of the post-open edit ("added") arenas
(`BufferLocation::Stored(id)` / `BufferLocation::Added(id)`). -/
inductive BufferLocation where
  | stored (id : Nat)
  | added (id : Nat)
  deriving DecidableEq, Repr

/-- Modelled from the spec: `BufferLocation::buffer_id` returns the arena
id. -/
def BufferLocation.buffer_id : BufferLocation → Nat
  | stored id => id
  | added id => id

/-- Modelled from the spec (§4.A byte arena): an append-only byte buffer
with a small-integer id (`StringBuffer`). -/
structure StringBuffer where
  id : Nat
  data : List Nat
  deriving DecidableEq, Repr

/-- Modelled from the spec: count of line feeds in the buffer. -/
def StringBuffer.line_feed_count (b : StringBuffer) : Nat :=
  b.data.countP fun x => x = 10

/-- Modelled from the spec (§4.A): `append(bytes)` appends and returns the
pre-append length as the offset at which the new bytes begin. -/
def StringBuffer.append (b : StringBuffer) (text : List Nat) : Nat × StringBuffer :=
  (b.data.length, ⟨b.id, b.data ++ text⟩)

/-- Modelled from the spec (§3): a piece carves the window
`[offset, offset + bytes)` in its arena and carries its line-feed count. -/
structure Piece where
  location : BufferLocation
  offset : Nat
  bytes : Nat
  lineFeedCount : Nat
  deriving DecidableEq, Repr

/-- Modelled from the spec (§3, §4.C): the piece tree as an ordered sequence
of pieces (the spec allows a flat sequence; ordering by cumulative byte
offset is what the operations below rely on). -/
structure PieceTree where
  pieces : List Piece
  deriving DecidableEq, Repr

/-- Modelled from the spec: the piece information returned by
`find_by_offset` — the piece's location, arena window and the intra-piece
offset of the queried byte. -/
structure PieceInfo where
  location : BufferLocation
  offset : Nat
  bytes : Nat
  offset_in_piece : Option Nat
  deriving DecidableEq, Repr

/-- Modelled from the spec (§4.C `find_by_offset`): walk the cumulative byte
counts to the piece containing the queried offset; `none` past the end. -/
def findByOffsetAux : List Piece → Nat → Option PieceInfo
  | [], _ => none
  | p :: ps, off =>
    if off < p.bytes then some ⟨p.location, p.offset, p.bytes, some off⟩
    else findByOffsetAux ps (off - p.bytes)

def PieceTree.find_by_offset (t : PieceTree) (off : Nat) : Option PieceInfo :=
  findByOffsetAux t.pieces off

/-- Modelled from the spec: line feeds inside the window
`[off, off + len)` of the located arena. -/
def countLineFeeds (buffers : List StringBuffer) (loc : BufferLocation)
    (off len : Nat) : Nat :=
  match buffers.get? loc.buffer_id with
  | some b => ((b.data.drop off).take len).countP fun x => x = 10
  | none => 0

/-- Modelled from the spec (§4.C `insert`): locate the piece containing the
offset, split it if the offset is interior, and insert the new piece between
the two halves (line-feed counts of the halves are recounted from the
arena). -/
def insertPiecesAux (buffers : List StringBuffer) :
    List Piece → Nat → Piece → List Piece
  | [], _, np => [np]
  | p :: ps, off, np =>
    if off = 0 then np :: p :: ps
    else if off < p.bytes then
      ⟨p.location, p.offset, off, countLineFeeds buffers p.location p.offset off⟩
        :: np
        :: ⟨p.location, p.offset + off, p.bytes - off,
            countLineFeeds buffers p.location (p.offset + off) (p.bytes - off)⟩
        :: ps
    else p :: insertPiecesAux buffers ps (off - p.bytes) np

/-- Modelled from the spec (§4.C): tree-level insert, returning the cursor
(modelled as the insertion offset). -/
def PieceTree.insert (t : PieceTree) (off : Nat) (loc : BufferLocation)
    (bufOffset len lf : Nat) (buffers : List StringBuffer) : PieceTree × Nat :=
  (⟨insertPiecesAux buffers t.pieces off ⟨loc, bufOffset, len, lf⟩⟩, off)

/-- `TextBuffer` (`text_buffer.rs` lines 8–19): the piece tree, the list of
string buffers (index 0 is the original stored buffer), and the next buffer
id to assign. -/
structure TextBuffer where
  piece_tree : PieceTree
  buffers : List StringBuffer
  next_buffer_id : Nat
  deriving DecidableEq, Repr

/-- `TextBuffer::new` (lines 23–39). -/
def TextBuffer.new (content : List Nat) : TextBuffer :=
  let buffer : StringBuffer := ⟨0, content⟩
  { piece_tree :=
      if 0 < content.length then
        ⟨[⟨BufferLocation.stored 0, 0, content.length, buffer.line_feed_count⟩]⟩
      else ⟨[]⟩,
    buffers := [buffer],
    next_buffer_id := 1 }

/-- `TextBuffer::try_append_to_existing_buffer` (lines 107–142).  Returns
the `(location, buffer_offset, text_len)` triple together with the updated
buffer list (the source mutates `self.buffers` in place via
`buffer.append`); `none` mirrors every early `return None`.  Buffer ids
coincide with indices into `buffers`, as maintained by `new` and
`insert_bytes`. -/
def TextBuffer.try_append_to_existing_buffer (tb : TextBuffer) (offset : Nat)
    (text : List Nat) : Option ((BufferLocation × Nat × Nat) × List StringBuffer) :=
  if text.isEmpty || offset = 0 then none
  else
    match tb.piece_tree.find_by_offset (offset - 1) with
    | none => none
    | some pieceInfo =>
      match pieceInfo.offset_in_piece with
      | none => none
      | some offsetInPiece =>
        if offsetInPiece + 1 ≠ pieceInfo.bytes then none
        else
          match pieceInfo.location with
          | BufferLocation.stored _ => none
          | BufferLocation.added _ =>
            let bufferId := pieceInfo.location.buffer_id
            match tb.buffers.get? bufferId with
            | none => none
            | some buffer =>
              if pieceInfo.offset + pieceInfo.bytes ≠ buffer.data.length then none
              else
                let appended := buffer.append text
                some ((pieceInfo.location, appended.1, text.length),
                  tb.buffers.set bufferId appended.2)

/-- `TextBuffer::insert_bytes` (lines 72–103), returning the new buffer and
the cursor (modelled as the offset).  On empty text, return a cursor at the
offset.  Otherwise count line feeds, try the append-coalescing optimisation,
and fall back to creating a fresh `StringBuffer` with the next id; then
update the piece tree against the updated buffer list. -/
def TextBuffer.insert_bytes (tb : TextBuffer) (offset : Nat) (text : List Nat) :
    TextBuffer × Nat :=
  if text.isEmpty then (tb, offset)
  else
    let lineFeedCnt := text.countP fun b => b = 10
    match tb.try_append_to_existing_buffer offset text with
    | some ((bufferLocation, bufferOffset, textLen), buffers') =>
      let res := tb.piece_tree.insert offset bufferLocation bufferOffset textLen
        lineFeedCnt buffers'
      ({ piece_tree := res.1, buffers := buffers',
          next_buffer_id := tb.next_buffer_id }, res.2)
    | none =>
      let bufferId := tb.next_buffer_id
      let buffer : StringBuffer := ⟨bufferId, text⟩
      let buffers' := tb.buffers ++ [buffer]
      let res := tb.piece_tree.insert offset (BufferLocation.added bufferId) 0
        text.length lineFeedCnt buffers'
      ({ piece_tree := res.1, buffers := buffers',
          next_buffer_id := bufferId + 1 }, res.2)

/-- C6: the append-coalescing optimisation of `insert_bytes`.  For a
non-empty insertion at `offset > 0` whose preceding byte `offset - 1` lies
in the piece `(loc, poff, pbytes)` at intra-piece offset `k`, with `buffer`
the piece's arena: when (a) the piece lives in an added (edit) buffer,
(b) `offset - 1` is the piece's last byte (`k + 1 = pbytes`), and (c) the
piece ends exactly at its buffer's current length, then `insert_bytes`
appends the new bytes to that buffer — reusing the piece's location with the
pre-append length as the buffer offset and adding no new buffer, with
`next_buffer_id` unchanged; when any of the three conditions fails, a fresh
buffer holding exactly the inserted bytes is created and `next_buffer_id` is
bumped. -/
theorem claim_C6_append_coalescing (tb : TextBuffer) (offset : Nat) (text : List Nat)
    (hoff : 0 < offset) (htext : text ≠ [])
    (loc : BufferLocation) (poff pbytes k : Nat)
    (hfind : tb.piece_tree.find_by_offset (offset - 1) = some ⟨loc, poff, pbytes, some k⟩)
    (buffer : StringBuffer) (hbuf : tb.buffers.get? loc.buffer_id = some buffer) :
    (((∃ id, loc = BufferLocation.added id) ∧ k + 1 = pbytes
        ∧ poff + pbytes = buffer.data.length) →
      tb.try_append_to_existing_buffer offset text
          = some ((loc, buffer.data.length, text.length),
              tb.buffers.set loc.buffer_id ⟨buffer.id, buffer.data ++ text⟩)
        ∧ (tb.insert_bytes offset text).1.buffers
            = tb.buffers.set loc.buffer_id ⟨buffer.id, buffer.data ++ text⟩
        ∧ (tb.insert_bytes offset text).1.next_buffer_id = tb.next_buffer_id)
    ∧ (¬ ((∃ id, loc = BufferLocation.added id) ∧ k + 1 = pbytes
        ∧ poff + pbytes = buffer.data.length) →
      tb.try_append_to_existing_buffer offset text = none
        ∧ (tb.insert_bytes offset text).1.buffers
            = tb.buffers ++ [⟨tb.next_buffer_id, text⟩]
        ∧ (tb.insert_bytes offset text).1.next_buffer_id = tb.next_buffer_id + 1) := by
  obtain ⟨t0, ts, rfl⟩ : ∃ t0 ts, text = t0 :: ts := by
    cases text with
    | nil => exact absurd rfl htext
    | cons t0 ts => exact ⟨t0, ts, rfl⟩
  have hne : (t0 :: ts).isEmpty = false := rfl
  constructor
  · rintro ⟨⟨id, rfl⟩, hb, hc⟩
    simp only [BufferLocation.buffer_id] at hbuf ⊢
    have htry : tb.try_append_to_existing_buffer offset (t0 :: ts)
        = some ((BufferLocation.added id, buffer.data.length, (t0 :: ts).length),
            tb.buffers.set id ⟨buffer.id, buffer.data ++ (t0 :: ts)⟩) := by
      unfold TextBuffer.try_append_to_existing_buffer
      rw [hne, hfind]
      simp only [Bool.false_or, decide_eq_true_eq]
      rw [if_neg (by omega : ¬ offset = 0), if_neg (by omega : ¬ k + 1 ≠ pbytes)]
      simp only [BufferLocation.buffer_id]
      rw [hbuf]
      simp [hc, StringBuffer.append]
    refine ⟨htry, ?_, ?_⟩
    · unfold TextBuffer.insert_bytes
      rw [hne, htry]
      simp
    · unfold TextBuffer.insert_bytes
      rw [hne, htry]
      simp
  · intro hnot
    have htry : tb.try_append_to_existing_buffer offset (t0 :: ts) = none := by
      unfold TextBuffer.try_append_to_existing_buffer
      rw [hne, hfind]
      simp only [Bool.false_or, decide_eq_true_eq]
      rw [if_neg (by omega : ¬ offset = 0)]
      by_cases hb : k + 1 = pbytes
      · rw [if_neg (by omega : ¬ k + 1 ≠ pbytes)]
        cases hloc : loc with
        | stored i => rfl
        | added i =>
          subst hloc
          simp only [BufferLocation.buffer_id] at hbuf ⊢
          rw [hbuf]
          have hc : ¬ poff + pbytes = buffer.data.length := fun hc =>
            hnot ⟨⟨i, rfl⟩, hb, hc⟩
          simp [hc]
      · rw [if_pos (by omega : k + 1 ≠ pbytes)]
    refine ⟨htry, ?_, ?_⟩
    · unfold TextBuffer.insert_bytes
      rw [hne, htry]
      simp
    · unfold TextBuffer.insert_bytes
      rw [hne, htry]
      simp

theorem claim_C6_witness :
    (TextBuffer.try_append_to_existing_buffer
        ⟨⟨[⟨BufferLocation.stored 0, 0, 2, 0⟩, ⟨BufferLocation.added 1, 0, 1, 0⟩]⟩,
          [⟨0, [104, 105]⟩, ⟨1, [33]⟩], 2⟩ 3 [34]
      = some ((BufferLocation.added 1, 1, 1),
          [⟨0, [104, 105]⟩, ⟨1, [33, 34]⟩]))
    ∧ ((TextBuffer.insert_bytes
        ⟨⟨[⟨BufferLocation.stored 0, 0, 2, 0⟩, ⟨BufferLocation.added 1, 0, 1, 0⟩]⟩,
          [⟨0, [104, 105]⟩, ⟨1, [33]⟩], 2⟩ 3 [34]).1.buffers
      = [⟨0, [104, 105]⟩, ⟨1, [33, 34]⟩])
    ∧ ((TextBuffer.insert_bytes
        ⟨⟨[⟨BufferLocation.stored 0, 0, 2, 0⟩, ⟨BufferLocation.added 1, 0, 1, 0⟩]⟩,
          [⟨0, [104, 105]⟩, ⟨1, [33]⟩], 2⟩ 3 [34]).1.next_buffer_id = 2) :=
  (claim_C6_append_coalescing
      ⟨⟨[⟨BufferLocation.stored 0, 0, 2, 0⟩, ⟨BufferLocation.added 1, 0, 1, 0⟩]⟩,
        [⟨0, [104, 105]⟩, ⟨1, [33]⟩], 2⟩ 3 [34]
      (by decide) (by decide) (BufferLocation.added 1) 0 1 0 (by decide)
      ⟨1, [33]⟩ (by decide)).1
    ⟨⟨1, rfl⟩, by decide, by decide⟩

end Fresh
